import Mathlib

/-!
# learning-platform-nosql: cache-aside data access layer

A shallow embedding of the JavaScript sources

* `src/config/db.js` (connection manager),
* `src/services/mongoService.js` (document store access),
* `src/services/redisService.js` (cache access),
* `src/controllers/courseController.js`, `src/controllers/studentController.js`,
* `src/config/env.js` (configuration) and `src/app.js` (start-up and shutdown)

as state-passing Lean functions over an explicit `World` that holds the
process environment, the module-level variables of `db.js`, the contents of the
two backing services and the trace of calls made to the client libraries.

Conventions of the embedding

* JavaScript values are the inductive `JsVal`; numbers are integers.
* An `async` function is a function `World → Except JsError α × World`
  (`Js α`): a rejected promise / thrown exception is `Except.error`, and the
  world reached so far is kept, as in JavaScript.
* `console.log` / `console.error` have no effect on the world and are omitted.
* The client libraries (`mongodb`, `redis`) are not part of the repository;
  their behaviour is the small model in the section "client libraries".
-/

namespace LearningPlatform

/-! ## JavaScript values -/

/-- JavaScript values that can occur in request bodies, documents and cache
entries.  `oid` is an instance of the driver's `ObjectId`, given by its
hexadecimal form.  The numbers of the model are the integers: `num n` is the
JavaScript number `n`, which exists as such when `|n| ≤ 2^53 - 1`
(`Number.isSafeInteger`); fractions, `NaN`, the infinities and negative zero
are not values of the model. -/
inductive JsVal where
  | undefined
  | null
  | bool (b : Bool)
  | num (n : Int)
  | str (s : String)
  | oid (hex : String)
  | arr (xs : List JsVal)
  | obj (fields : List (String × JsVal))

/-- A document / record: the own enumerable properties of a plain object, in
insertion order. -/
abbrev Record := List (String × JsVal)

/-- A thrown JavaScript error: constructor name and message. -/
structure JsError where
  name : String
  message : String
  deriving DecidableEq, Repr

/-- `new Error(msg)`. -/
def mkError (msg : String) : JsError := ⟨"Error", msg⟩

/-- `ToBoolean(v)`: the test performed by `if (v)`, `!v` and `a || b`. -/
def JsVal.truthy : JsVal → Bool
  | .undefined => false
  | .null => false
  | .bool b => b
  | .num n => n != 0
  | .str s => s != ""
  | .oid _ => true
  | .arr _ => true
  | .obj _ => true

/-- Property read `o[k]` on a record: `undefined` when the key is absent. -/
def Record.getProp : Record → String → JsVal
  | [], _ => .undefined
  | (k, v) :: rest, key => if k = key then v else Record.getProp rest key

/-- Property write `o[k] = v`: replaces in place, or appends a new key. -/
def Record.setProp : Record → String → JsVal → Record
  | [], key, v => [(key, v)]
  | (k, x) :: rest, key, v =>
    if k = key then (k, v) :: rest else (k, x) :: Record.setProp rest key v

/-- `ToString(v)` for the values of the model.  A plain object has the
inherited `Object.prototype.toString`, an array joins its elements with a
comma, an `ObjectId` prints its hexadecimal form. -/
def JsVal.toJsString : JsVal → String
  | .undefined => "undefined"
  | .null => "null"
  | .bool true => "true"
  | .bool false => "false"
  | .num n => toString n
  | .str s => s
  | .oid h => h
  | .arr xs => joinElems xs
  | .obj _ => "[object Object]"
where
  /-- `Array.prototype.join(",")`: `null` and `undefined` print as empty. -/
  joinElems : List JsVal → String
    | [] => ""
    | [v] => elemString v
    | v :: vs => elemString v ++ "," ++ joinElems vs
  /-- One element of a joined array. -/
  elemString : JsVal → String
    | .undefined => ""
    | .null => ""
    | .bool true => "true"
    | .bool false => "false"
    | .num n => toString n
    | .str s => s
    | .oid h => h
    | .arr xs => joinElems xs
    | .obj _ => "[object Object]"

/-! ## JSON -/

/-- The double quote character. -/
def dq : Char := Char.ofNat 34

/-- The reverse solidus (escape) character. -/
def bsl : Char := Char.ofNat 92

/-- Lower-case hexadecimal digit of a number below 16. -/
def hexDigit (n : Nat) : Char :=
  if n < 10 then Char.ofNat (48 + n) else Char.ofNat (87 + n)

/-- `QuoteJSONString`, one code unit: the two-character escapes, and
`\u00xx` for the remaining control characters. -/
def escapeChar (c : Char) : List Char :=
  if c = dq then [bsl, dq]
  else if c = bsl then [bsl, bsl]
  else if c.toNat = 8 then [bsl, 'b']
  else if c.toNat = 12 then [bsl, 'f']
  else if c.toNat = 10 then [bsl, 'n']
  else if c.toNat = 13 then [bsl, 'r']
  else if c.toNat = 9 then [bsl, 't']
  else if c.toNat < 32 then [bsl, 'u', '0', '0', hexDigit (c.toNat / 16), hexDigit (c.toNat % 16)]
  else [c]

/-- `QuoteJSONString(s)`. -/
def quoteString (s : String) : List Char :=
  dq :: (s.data.flatMap escapeChar ++ [dq])

/-- `SerializeJSONProperty` for a value that is present: an `ObjectId` is
replaced by its `toJSON()` (the hexadecimal string); inside an array
`undefined` is written `null`; a property whose value is `undefined` is left
out of an object. -/
def serialize : JsVal → List Char
  | .undefined => "null".data
  | .null => "null".data
  | .bool true => "true".data
  | .bool false => "false".data
  | .num n => (toString n).data
  | .str s => quoteString s
  | .oid h => quoteString h
  | .arr xs => '[' :: (serializeElems xs ++ [']'])
  | .obj fs => Char.ofNat 123 :: (serializeMembers fs false ++ [Char.ofNat 125])
where
  /-- The elements of an array, separated by commas. -/
  serializeElems : List JsVal → List Char
    | [] => []
    | [v] => serialize v
    | v :: vs => serialize v ++ ',' :: serializeElems vs
  /-- The members of an object; `sep` says that a member was already
  written. -/
  serializeMembers : List (String × JsVal) → Bool → List Char
    | [], _ => []
    | (_, .undefined) :: fs, sep => serializeMembers fs sep
    | (k, v) :: fs, sep =>
      (if sep then [','] else []) ++ quoteString k ++ ':' :: serialize v
        ++ serializeMembers fs true

/-- `JSON.stringify(v)`: `none` stands for the result `undefined`. -/
def JSON.stringify : JsVal → Option String
  | .undefined => none
  | v => some (String.mk (serialize v))

/-- JSON white space. -/
def isWs (c : Char) : Bool :=
  c.toNat = 32 || c.toNat = 9 || c.toNat = 10 || c.toNat = 13

/-- Drop leading white space. -/
def skipWs : List Char → List Char
  | [] => []
  | c :: cs => if isWs c then skipWs cs else c :: cs

/-- Value of a hexadecimal digit. -/
def hexVal (c : Char) : Option Nat :=
  if c.isDigit then some (c.toNat - 48)
  else if 97 ≤ c.toNat ∧ c.toNat ≤ 102 then some (c.toNat - 87)
  else if 65 ≤ c.toNat ∧ c.toNat ≤ 70 then some (c.toNat - 55)
  else none

/-- The character denoted by a single-character escape. -/
def unescape (c : Char) : Option Char :=
  if c = dq then some dq
  else if c = bsl then some bsl
  else if c = '/' then some '/'
  else if c = 'b' then some (Char.ofNat 8)
  else if c = 'f' then some (Char.ofNat 12)
  else if c = 'n' then some (Char.ofNat 10)
  else if c = 'r' then some (Char.ofNat 13)
  else if c = 't' then some (Char.ofNat 9)
  else none

/-- The rest of a JSON string after its opening quote; `acc` is the decoded
text so far, reversed. -/
def parseStringBody : List Char → List Char → Option (String × List Char)
  | [], _ => none
  | c :: cs, acc =>
    if c = dq then some (String.mk acc.reverse, cs)
    else if c = bsl then
      match cs with
      | 'u' :: h1 :: h2 :: h3 :: h4 :: rest =>
        match hexVal h1, hexVal h2, hexVal h3, hexVal h4 with
        | some a, some b, some c3, some d =>
          parseStringBody rest (Char.ofNat (((a * 16 + b) * 16 + c3) * 16 + d) :: acc)
        | _, _, _, _ => none
      | e :: rest =>
        match unescape e with
        | some d => parseStringBody rest (d :: acc)
        | none => none
      | [] => none
    else if c.toNat < 32 then none
    else parseStringBody cs (c :: acc)

/-- Read a maximal run of decimal digits. -/
def takeDigits : List Char → Nat → Nat × List Char
  | [], n => (n, [])
  | c :: cs, n => if c.isDigit then takeDigits cs (n * 10 + (c.toNat - 48)) else (n, c :: cs)

/-- A JSON number without fraction and exponent (the numbers of the model are
integers): `0`, or a non-zero digit followed by digits. -/
def parseNat : List Char → Option (Nat × List Char)
  | [] => none
  | c :: cs =>
    if c = '0' then some (0, cs)
    else if c.isDigit then some (takeDigits cs (c.toNat - 48))
    else none

/-- An integer literal.  A literal with a fraction or an exponent denotes a
number that is not a value of the model; no result is given for it, so the
model of `JSON.parse` is that of texts whose numbers are integer literals. -/
def parseNumber (cs : List Char) : Option (JsVal × List Char) :=
  let r : Option (Int × List Char) :=
    match cs with
    | '-' :: rest => (parseNat rest).map fun p => (-(p.1 : Int), p.2)
    | _ => (parseNat cs).map fun p => ((p.1 : Int), p.2)
  match r with
  | none => none
  | some (n, rest) =>
    match rest with
    | '.' :: _ => none
    | 'e' :: _ => none
    | 'E' :: _ => none
    | _ => some (.num n, rest)

mutual
/-- One JSON value, with the unread rest of the text.  `fuel` bounds the
nesting of recursive calls. -/
def parseValue : Nat → List Char → Option (JsVal × List Char)
  | 0, _ => none
  | fuel + 1, cs =>
    match skipWs cs with
    | [] => none
    | 'n' :: 'u' :: 'l' :: 'l' :: rest => some (.null, rest)
    | 't' :: 'r' :: 'u' :: 'e' :: rest => some (.bool true, rest)
    | 'f' :: 'a' :: 'l' :: 's' :: 'e' :: rest => some (.bool false, rest)
    | c :: rest =>
      if c = dq then
        (parseStringBody rest []).map fun p => (.str p.1, p.2)
      else if c = '[' then
        match skipWs rest with
        | ']' :: r => some (.arr [], r)
        | r => parseElems fuel r []
      else if c.toNat = 123 then
        match skipWs rest with
        | [] => none
        | d :: r => if d.toNat = 125 then some (.obj [], r) else parseMembers fuel (d :: r) []
      else parseNumber (c :: rest)
/-- The elements of a non-empty array, up to and including the closing
bracket; `acc` holds the elements read so far, reversed. -/
def parseElems : Nat → List Char → List JsVal → Option (JsVal × List Char)
  | 0, _, _ => none
  | fuel + 1, cs, acc =>
    match parseValue fuel cs with
    | none => none
    | some (v, r) =>
      match skipWs r with
      | ',' :: r2 => parseElems fuel r2 (v :: acc)
      | ']' :: r2 => some (.arr (v :: acc).reverse, r2)
      | _ => none
/-- The members of a non-empty object, up to and including the closing
brace.  A repeated key keeps its first position and takes the last value. -/
def parseMembers : Nat → List Char → Record → Option (JsVal × List Char)
  | 0, _, _ => none
  | fuel + 1, cs, acc =>
    match skipWs cs with
    | [] => none
    | q :: r0 =>
      if q = dq then
        match parseStringBody r0 [] with
        | none => none
        | some (k, r1) =>
          match skipWs r1 with
          | ':' :: r2 =>
            match parseValue fuel r2 with
            | none => none
            | some (v, r3) =>
              match skipWs r3 with
              | [] => none
              | d :: r4 =>
                if d = ',' then parseMembers fuel r4 (Record.setProp acc k v)
                else if d.toNat = 125 then some (.obj (Record.setProp acc k v), r4)
                else none
          | _ => none
      else none
end

/-- `new SyntaxError(...)` raised by `JSON.parse`. -/
def jsonSyntaxError : JsError := ⟨"SyntaxError", "Unexpected token in JSON"⟩

/-- `JSON.parse` on a text: the whole text must be one JSON value. -/
def JSON.parseText (s : String) : Except JsError JsVal :=
  match parseValue (2 * s.data.length + 2) s.data with
  | none => .error jsonSyntaxError
  | some (v, rest) =>
    match skipWs rest with
    | [] => .ok v
    | _ => .error jsonSyntaxError

/-- `JSON.parse(v)`: the argument is first converted with `ToString`. -/
def JSON.parse (v : JsVal) : Except JsError JsVal :=
  JSON.parseText v.toJsString

/-! ## The JSON form of a value -/

/-- The value denoted by the JSON text of `v`: an `ObjectId` is replaced by
its hexadecimal string, everywhere in `v`; nothing else changes.  (Meant for
values without `undefined`, see `jsonSafe`.) -/
def jsonForm : JsVal → JsVal
  | .undefined => .undefined
  | .null => .null
  | .bool b => .bool b
  | .num n => .num n
  | .str s => .str s
  | .oid h => .str h
  | .arr xs => .arr (formElems xs)
  | .obj fs => .obj (formFields fs)
where
  /-- The JSON form of the elements of an array. -/
  formElems : List JsVal → List JsVal
    | [] => []
    | v :: vs => jsonForm v :: formElems vs
  /-- The JSON form of the members of an object. -/
  formFields : List (String × JsVal) → List (String × JsVal)
    | [] => []
    | (k, v) :: fs => (k, jsonForm v) :: formFields fs

/-- Values whose JSON text the model reads back: no `undefined` anywhere,
every number a safe integer (`|n| ≤ 2^53 - 1`, where JavaScript numbers are
exact and print as plain digits), and the field names of every object
distinct (as in every JavaScript object). -/
def jsonSafe : JsVal → Bool
  | .undefined => false
  | .null => true
  | .bool _ => true
  | .num n => decide (n.natAbs ≤ 9007199254740991)
  | .str _ => true
  | .oid _ => true
  | .arr xs => safeElems xs
  | .obj fs => safeFields fs && decide ((fs.map Prod.fst).Nodup)
where
  /-- Every element of an array is safe. -/
  safeElems : List JsVal → Bool
    | [] => true
    | v :: vs => jsonSafe v && safeElems vs
  /-- Every member value of an object is safe. -/
  safeFields : List (String × JsVal) → Bool
    | [] => true
    | (_, v) :: fs => jsonSafe v && safeFields fs

/-- A bound on the nesting of parser calls needed to read the text of a
value. -/
def jsonSize : JsVal → Nat
  | .undefined => 1
  | .null => 1
  | .bool _ => 1
  | .num _ => 1
  | .str _ => 1
  | .oid _ => 1
  | .arr xs => 1 + sizeElems xs
  | .obj fs => 1 + sizeFields fs
where
  /-- The bound for the elements of an array. -/
  sizeElems : List JsVal → Nat
    | [] => 0
    | v :: vs => 1 + jsonSize v + sizeElems vs
  /-- The bound for the members of an object. -/
  sizeFields : List (String × JsVal) → Nat
    | [] => 0
    | (_, v) :: fs => 1 + jsonSize v + sizeFields fs

/-- What may follow a serialised value: the end of the text, a comma, or a
closing bracket or brace. -/
def endsValue : List Char → Bool
  | [] => true
  | c :: _ => c = ',' || c = ']' || c.toNat = 125

/-! ## The world outside the program -/

/-- The fields of `process.env` that the program reads; `none` is an unset
variable. -/
structure Env where
  MONGODB_URI : Option String
  MONGODB_DB_NAME : Option String
  REDIS_URI : Option String
  NODE_ENV : Option String
  PORT : Option String

/-- `!s` for an environment value: unset or the empty string. -/
def envMissing : Option String → Bool
  | none => true
  | some s => s = ""

/-- The calls into the two client libraries that the program makes. -/
inductive Op where
  | newMongoClient
  | mongoConnect
  | mongoClose
  | findOne
  | find
  | insertOne
  | findOneAndUpdate
  | deleteOne
  | countDocuments
  | aggregate
  | createClient
  | redisOn
  | redisConnect
  | redisQuit
  | redisSet
  | redisGet
  | redisDel
  | redisExists
  | redisFlushAll
  deriving DecidableEq, Repr

/-- Calls that reach the document store or its client. -/
def Op.isMongo : Op → Bool
  | .newMongoClient | .mongoConnect | .mongoClose | .findOne | .find | .insertOne
  | .findOneAndUpdate | .deleteOne | .countDocuments | .aggregate => true
  | _ => false

/-- The functions of `db.js` that are handed to `setTimeout`. -/
inductive Callback where
  | connectMongo
  | connectRedis
  deriving DecidableEq, Repr

/-- One observable effect: a call into a client library (with the
collection or key it addresses, or the event name for `on`), a timer
registered with `setTimeout`, a router mounted with `app.use`, the server
started with `app.listen` (the port in its printed form), or the end of the
process with `process.exit`. -/
inductive Event where
  | call (op : Op) (target : String)
  | setTimeout (fn : Callback) (ms : Nat)
  | useRoutes (path : String)
  | listen (port : String)
  | exit (code : Nat)
  deriving DecidableEq, Repr

/-- An entry of the key-value store: the stored text and the time to live in
seconds given with `EX`. -/
structure CacheEntry where
  value : String
  ttl : Nat
  deriving DecidableEq, Repr

/-- A client object of the `redis` library: its serial number and whether
its `connect()` has completed. -/
structure RedisClient where
  id : Nat
  isOpen : Bool
  deriving DecidableEq, Repr

/-- The value of `mongoClient.db(dbName)`. -/
structure Db where
  client : Nat
  name : String
  deriving DecidableEq, Repr

/-- Everything the program reads or changes.

* `env`, `isValid`, `oidHex`, `fails`, `oidSupply` are given from outside
  and never change: the process environment, `ObjectId.isValid` and the
  hexadecimal form of `new ObjectId(id)` of the driver, which library calls
  fail in this run, and the identifiers the store assigns.
* `store`, `cache` are the contents of the document store (by collection)
  and of the key-value store (entries that have not expired).
* `mongoClient`, `redisClient`, `db` are the module variables of `db.js`.
* `clients` counts the client objects constructed so far, `oidUsed` the
  identifiers assigned so far, `trace` lists the effects, oldest first. -/
structure World where
  env : Env
  isValid : String → Bool
  oidHex : String → String
  fails : Op → Bool
  oidSupply : Nat → String
  store : String → List Record
  cache : String → Option CacheEntry
  mongoClient : Option Nat
  redisClient : Option RedisClient
  db : Option Db
  clients : Nat
  oidUsed : Nat
  trace : List Event

/-- Append one effect to the trace. -/
def World.emit (w : World) (e : Event) : World :=
  { w with trace := w.trace ++ [e] }

/-! ## Asynchronous functions -/

/-- An `async` function returning `α`: from a world to a fulfilled
(`ok`) or rejected (`error`) result and the world reached. -/
def Js (α : Type) : Type := World → Except JsError α × World

/-- `return a`. -/
def Js.pure {α : Type} (a : α) : Js α := fun w => (.ok a, w)

/-- Sequencing with `await`: a rejection skips the rest. -/
def Js.bind {α β : Type} (m : Js α) (f : α → Js β) : Js β := fun w =>
  match m w with
  | (.ok a, w1) => f a w1
  | (.error e, w1) => (.error e, w1)

instance : Monad Js where
  pure := Js.pure
  bind := Js.bind

/-- `throw e`. -/
def Js.throw {α : Type} (e : JsError) : Js α := fun w => (.error e, w)

/-- `try { body } catch (error) { handler }`. -/
def Js.tryCatch {α : Type} (body : Js α) (handler : JsError → Js α) : Js α := fun w =>
  match body w with
  | (.ok a, w1) => (.ok a, w1)
  | (.error e, w1) => handler e w1

/-- Read the current world. -/
def Js.get : Js World := fun w => (.ok w, w)

/-- Replace the current world. -/
def Js.modify (f : World → World) : Js Unit := fun w => (.ok (), f w)

/-- Lift a synchronous computation that may throw. -/
def Js.ofExcept {α : Type} : Except JsError α → Js α
  | .ok a => Js.pure a
  | .error e => Js.throw e

/-! ## Client libraries

The `mongodb` and `redis` packages are not part of the repository.  Their
behaviour is modelled as follows: every call is recorded in the trace; a call
whose `Op` is marked in `World.fails` rejects; otherwise it acts on
`World.store` / `World.cache` as the server would.

The `mongodb` driver is the one of the major versions 6 and 7:
`findOneAndUpdate` resolves with the updated document itself, or with `null`
when no document matches (`includeResultMetadata` is `false` unless asked
for), and `insertOne` assigns an identifier to a document whose `_id` is
`undefined` or `null`. -/

/-- The rejection of a failed library call. -/
def libError (op : Op) : JsError := ⟨"LibraryError", reprStr op⟩

/-- `TypeError` for a method call on `undefined`. -/
def undefinedError : JsError := ⟨"TypeError", "Cannot read properties of undefined"⟩

/-- `TypeError` for a property read on `null`. -/
def nullError : JsError := ⟨"TypeError", "Cannot read properties of null"⟩

/-- The test `v == null`: the value is `undefined` or `null`. -/
def JsVal.isNullish : JsVal → Bool
  | .undefined => true
  | .null => true
  | _ => false

/-- A call into a client library: recorded, and rejected when the run marks
the operation as failing. -/
def libCall (op : Op) (target : String) : Js Unit := fun w =>
  if w.fails op then (.error (libError op), w.emit (.call op target))
  else (.ok (), w.emit (.call op target))

/-- `setTimeout(fn, ms)`: the timer is recorded; the program never waits for
it. -/
def setTimeout (fn : Callback) (ms : Nat) : Js Unit := fun w =>
  (.ok (), w.emit (.setTimeout fn ms))

/-- `new MongoClient(uri)`: a new client object with the next serial
number. -/
def newMongoClient (uri : String) : Js Nat := do
  libCall .newMongoClient uri
  let w ← Js.get
  Js.modify fun w => { w with clients := w.clients + 1 }
  pure w.clients

/-- `redis.createClient({ url })`: a new client object, not yet open. -/
def createClient (url : String) : Js RedisClient := do
  libCall .createClient url
  let w ← Js.get
  Js.modify fun w => { w with clients := w.clients + 1 }
  pure ⟨w.clients, false⟩

/-- A method of a collection called on the value of `getDb()`: a
`TypeError` when the handle is `undefined`. -/
def dbCall (db : Option Db) (op : Op) (collection : String) : Js Unit :=
  match db with
  | none => Js.throw undefinedError
  | some _ => libCall op collection

/-- A command sent through the value of `getRedisClient()`: a `TypeError`
when it is `undefined`, a rejection when the client is not open. -/
def redisCall (client : Option RedisClient) (op : Op) (key : String) : Js Unit :=
  match client with
  | none => Js.throw undefinedError
  | some c => fun w =>
    if c.isOpen then libCall op key w
    else (.error ⟨"ClientClosedError", "The client is closed"⟩, w.emit (.call op key))

/-- The filter `{ _id: new ObjectId(id) }` on a document. -/
def matchesId (w : World) (id : String) (doc : Record) : Bool :=
  match doc.getProp "_id" with
  | .oid h => h = w.oidHex id
  | _ => false

/-- BSON serialisation of the top-level fields with the driver defaults
(`ignoreUndefined: false`): a field that is `undefined` is stored as
`null`. -/
def toBson : Record → Record
  | [] => []
  | (k, .undefined) :: rest => (k, .null) :: toBson rest
  | (k, v) :: rest => (k, v) :: toBson rest

/-- The update `{ $set: updates }` applied to a document. -/
def applySet (doc updates : Record) : Record :=
  updates.foldl (fun d kv => d.setProp kv.1 kv.2) doc

/-- Replace the first document that satisfies `p`. -/
def replaceFirst (p : Record → Bool) (d1 : Record) : List Record → List Record
  | [] => []
  | d :: ds => if p d then d1 :: ds else d :: replaceFirst p d1 ds

/-- Remove the first document that satisfies `p`. -/
def removeFirst (p : Record → Bool) : List Record → List Record
  | [] => []
  | d :: ds => if p d then ds else d :: removeFirst p ds

/-- Change the documents of one collection. -/
def World.setCollection (w : World) (collection : String) (docs : List Record) : World :=
  { w with store := fun c => if c = collection then docs else w.store c }

/-- Change one key of the key-value store. -/
def World.setCache (w : World) (key : String) (e : Option CacheEntry) : World :=
  { w with cache := fun k => if k = key then e else w.cache k }

/-! ## `config/db.js` -/

/-- `connectMongo` of `config/db.js`. -/
def connectMongo : Js Unit :=
  Js.tryCatch
    (do
      let w ← Js.get
      let mongoUri := w.env.MONGODB_URI
      let dbName := w.env.MONGODB_DB_NAME
      if envMissing mongoUri || envMissing dbName then
        Js.throw (mkError
          "MONGODB_URI or MONGODB_DB_NAME is not defined in environment variables")
      else do
        let client ← newMongoClient (mongoUri.getD "")
        Js.modify fun w => { w with mongoClient := some client }
        libCall .mongoConnect ""
        Js.modify fun w => { w with db := some ⟨client, dbName.getD ""⟩ })
    (fun _ => do
      let w ← Js.get
      if w.env.NODE_ENV = some "test" then
        Js.throw (mkError "MongoDB connection failed during tests")
      else
        setTimeout .connectMongo 5000)

/-- The listener that `connectRedis` registers for the `error` event of the
client.  The library decides when it runs. -/
def redisErrorListener : Js Unit := do
  let w ← Js.get
  if w.env.NODE_ENV ≠ some "test" then
    setTimeout .connectRedis 5000
  else
    Js.throw (mkError "Redis connection failed during tests")

/-- `connectRedis` of `config/db.js`. -/
def connectRedis : Js Unit :=
  Js.tryCatch
    (do
      let w ← Js.get
      let redisUri := w.env.REDIS_URI
      if envMissing redisUri then
        Js.throw (mkError "REDIS_URI is not defined in environment variables")
      else do
        let client ← createClient (redisUri.getD "")
        Js.modify fun w => { w with redisClient := some client }
        libCall .redisOn "connect"
        libCall .redisOn "error"
        libCall .redisConnect ""
        Js.modify fun w => { w with redisClient := some { client with isOpen := true } })
    (fun _ => do
      let w ← Js.get
      if w.env.NODE_ENV ≠ some "test" then
        setTimeout .connectRedis 5000
      else
        Js.throw (mkError "Redis connection failed during tests"))

/-- `closeConnections` of `config/db.js`. -/
def closeConnections : Js Unit :=
  Js.tryCatch
    (do
      let w ← Js.get
      if w.mongoClient.isSome then libCall .mongoClose ""
      if w.redisClient.isSome then libCall .redisQuit "")
    (fun _ => pure ())

/-- `getDb` of `config/db.js`. -/
def getDb : Js (Option Db) := fun w => (.ok w.db, w)

/-- `getRedisClient` of `config/db.js`. -/
def getRedisClient : Js (Option RedisClient) := fun w => (.ok w.redisClient, w)

/-! ## `services/mongoService.js` -/

/-- `findOneById`: the document, or `none` for `null`. -/
def findOneById (collection id : String) : Js (Option Record) := do
  let w ← Js.get
  if !w.isValid id then
    Js.throw (mkError "Invalid ObjectId")
  else do
    connectMongo
    let db ← getDb
    dbCall db .findOne collection
    let w ← Js.get
    pure ((w.store collection).find? (matchesId w id))

/-- `insertOne`: the driver assigns an identifier when the data has none
(`data._id == null`); the result is `{ ...data, _id: result.insertedId }`. -/
def insertOne (collection : String) (data : Record) : Js Record := do
  connectMongo
  let db ← getDb
  dbCall db .insertOne collection
  let w ← Js.get
  if (data.getProp "_id").isNullish then
    let insertedId := JsVal.oid (w.oidSupply w.oidUsed)
    Js.modify fun w =>
      { w.setCollection collection
          (w.store collection ++ [toBson (data.setProp "_id" insertedId)]) with
        oidUsed := w.oidUsed + 1 }
    pure (data.setProp "_id" insertedId)
  else
    let insertedId := data.getProp "_id"
    Js.modify fun w => w.setCollection collection (w.store collection ++ [toBson data])
    pure (data.setProp "_id" insertedId)

/-- `updateOneById`: `result.value`, where `result` is what
`findOneAndUpdate` with `returnDocument: 'after'` resolves with.  When no
document matches, `result` is `null` and the property read throws; otherwise
`result` is the updated document and `result.value` is its property named
`value`. -/
def updateOneById (collection id : String) (updates : Record) : Js JsVal := do
  let w ← Js.get
  if !w.isValid id then
    Js.throw (mkError "Invalid ObjectId")
  else do
    connectMongo
    let db ← getDb
    dbCall db .findOneAndUpdate collection
    let w ← Js.get
    match (w.store collection).find? (matchesId w id) with
    | none => Js.throw nullError
    | some doc =>
      let result := applySet doc (toBson updates)
      Js.modify fun w =>
        w.setCollection collection (replaceFirst (matchesId w id) result (w.store collection))
      pure (result.getProp "value")

/-- `deleteOneById`: `result.deletedCount > 0`. -/
def deleteOneById (collection id : String) : Js Bool := do
  let w ← Js.get
  if !w.isValid id then
    Js.throw (mkError "Invalid ObjectId")
  else do
    connectMongo
    let db ← getDb
    dbCall db .deleteOne collection
    let w ← Js.get
    let deletedCount := if (w.store collection).any (matchesId w id) then 1 else 0
    Js.modify fun w =>
      w.setCollection collection (removeFirst (matchesId w id) (w.store collection))
    pure (decide (deletedCount > 0))

/-! ## `services/redisService.js` -/

/-- `cacheData`: `SET key JSON.stringify(data) EX ttl`.  The client refuses
a value that is not a string, the server an expiry of zero. -/
def cacheData (key : String) (data : JsVal) (ttl : Nat) : Js Unit :=
  Js.tryCatch
    (do
      connectRedis
      let redisClient ← getRedisClient
      let stringData := JSON.stringify data
      redisCall redisClient .redisSet key
      match stringData with
      | none => Js.throw ⟨"TypeError", "Invalid argument type"⟩
      | some text =>
        if ttl = 0 then Js.throw ⟨"ErrorReply", "ERR invalid expire time"⟩
        else Js.modify fun w => w.setCache key (some ⟨text, ttl⟩))
    (fun error => Js.throw error)

/-- `getCachedData`: the parsed entry, or `null`. -/
def getCachedData (key : String) : Js JsVal :=
  Js.tryCatch
    (do
      connectRedis
      let redisClient ← getRedisClient
      redisCall redisClient .redisGet key
      let w ← Js.get
      match w.cache key with
      | none => pure .null
      | some entry =>
        if (JsVal.str entry.value).truthy then Js.ofExcept (JSON.parseText entry.value)
        else pure .null)
    (fun error => Js.throw error)

/-- `deleteCache`: whether a key was removed. -/
def deleteCache (key : String) : Js Bool :=
  Js.tryCatch
    (do
      connectRedis
      let redisClient ← getRedisClient
      redisCall redisClient .redisDel key
      let w ← Js.get
      let result := if (w.cache key).isSome then 1 else 0
      Js.modify fun w => w.setCache key none
      pure (decide (result > 0)))
    (fun error => Js.throw error)

/-- `keyExists`: whether the key is present. -/
def keyExists (key : String) : Js Bool :=
  Js.tryCatch
    (do
      connectRedis
      let redisClient ← getRedisClient
      redisCall redisClient .redisExists key
      let w ← Js.get
      let exists_ := if (w.cache key).isSome then 1 else 0
      pure (decide (exists_ = 1)))
    (fun error => Js.throw error)

/-! ## Controllers -/

/-- What a handler sends: `res.status(status).json(body)`. -/
structure Response where
  status : Nat
  body : JsVal

/-- The body `{ error: msg }`. -/
def errorBody (msg : String) : JsVal := .obj [("error", .str msg)]

/-- The body `{ message: msg }`. -/
def messageBody (msg : String) : JsVal := .obj [("message", .str msg)]

/-- The two resources and what differs between their controllers. -/
inductive Resource where
  | course
  | student
  deriving DecidableEq, Repr

/-- The collection of a resource. -/
def Resource.collection : Resource → String
  | .course => "courses"
  | .student => "students"

/-- The cache key of a record of a resource, as built by the template
literals of the controllers. -/
def Resource.key : Resource → String → String
  | .course, id => "course:" ++ id
  | .student, id => "student:" ++ id

/-! ### `controllers/courseController.js` -/

/-- `createCourse` applied to `req.body`. -/
def createCourse (body : Record) : Js Response :=
  let name := body.getProp "name"
  let duration := body.getProp "duration"
  if !name.truthy || !duration.truthy then
    pure ⟨400, errorBody "All fields are required: name and duration"⟩
  else
    Js.tryCatch
      (do
        let course ← insertOne "courses" [("name", name), ("duration", duration)]
        cacheData ("course:" ++ (course.getProp "_id").toJsString) (.obj course) 3600
        pure ⟨201, .obj course⟩)
      (fun _ => pure ⟨500, errorBody "Internal server error"⟩)

/-- `getCourseById` applied to `req.params.id`. -/
def getCourseById (id : String) : Js Response :=
  Js.tryCatch
    (do
      let cachedCourse ← getCachedData ("course:" ++ id)
      if cachedCourse.truthy then
        let parsed ← Js.ofExcept (JSON.parse cachedCourse)
        pure ⟨200, parsed⟩
      else do
        let course ← findOneById "courses" id
        match course with
        | none => pure ⟨404, errorBody "Course not found"⟩
        | some course =>
          cacheData ("course:" ++ id) (.obj course) 3600
          pure ⟨200, .obj course⟩)
    (fun _ => pure ⟨500, errorBody "Internal server error"⟩)

/-- `updateCourse` applied to `req.params.id` and `req.body`. -/
def updateCourse (id : String) (body : Record) : Js Response :=
  let name := body.getProp "name"
  let duration := body.getProp "duration"
  Js.tryCatch
    (do
      let updatedCourse ← updateOneById "courses" id [("name", name), ("duration", duration)]
      if !updatedCourse.truthy then
        pure ⟨404, errorBody "Course not found"⟩
      else do
        cacheData ("course:" ++ id) updatedCourse 3600
        pure ⟨200, updatedCourse⟩)
    (fun _ => pure ⟨500, errorBody "Internal server error"⟩)

/-- `deleteCourse` applied to `req.params.id`. -/
def deleteCourse (id : String) : Js Response :=
  Js.tryCatch
    (do
      let result ← deleteOneById "courses" id
      if !result then
        pure ⟨404, errorBody "Course not found"⟩
      else do
        let _ ← deleteCache ("course:" ++ id)
        pure ⟨200, messageBody "Course deleted successfully"⟩)
    (fun _ => pure ⟨500, errorBody "Internal server error"⟩)

/-! ### `controllers/studentController.js` -/

/-- `createStudent` applied to `req.body`. -/
def createStudent (body : Record) : Js Response :=
  let name := body.getProp "name"
  let age := body.getProp "age"
  let courseIds := body.getProp "courseIds"
  if !name.truthy || !age.truthy || !courseIds.truthy then
    pure ⟨400, errorBody "All fields are required: name, age, and courseIds"⟩
  else
    Js.tryCatch
      (do
        let student ← insertOne "students"
          [("name", name), ("age", age), ("courseIds", courseIds)]
        cacheData ("student:" ++ (student.getProp "_id").toJsString) (.obj student) 3600
        pure ⟨201, .obj student⟩)
      (fun _ => pure ⟨500, errorBody "Internal server error"⟩)

/-- `getStudentById` applied to `req.params.id`. -/
def getStudentById (id : String) : Js Response :=
  Js.tryCatch
    (do
      let cachedStudent ← getCachedData ("student:" ++ id)
      if cachedStudent.truthy then
        let parsed ← Js.ofExcept (JSON.parse cachedStudent)
        pure ⟨200, parsed⟩
      else do
        let student ← findOneById "students" id
        match student with
        | none => pure ⟨404, errorBody "Student not found"⟩
        | some student =>
          cacheData ("student:" ++ id) (.obj student) 3600
          pure ⟨200, .obj student⟩)
    (fun _ => pure ⟨500, errorBody "Internal server error"⟩)

/-- `updateStudent` applied to `req.params.id` and `req.body`. -/
def updateStudent (id : String) (body : Record) : Js Response :=
  let name := body.getProp "name"
  let age := body.getProp "age"
  let courseIds := body.getProp "courseIds"
  Js.tryCatch
    (do
      let updatedStudent ← updateOneById "students" id
        [("name", name), ("age", age), ("courseIds", courseIds)]
      if !updatedStudent.truthy then
        pure ⟨404, errorBody "Student not found"⟩
      else do
        cacheData ("student:" ++ id) updatedStudent 3600
        pure ⟨200, updatedStudent⟩)
    (fun _ => pure ⟨500, errorBody "Internal server error"⟩)

/-- `deleteStudent` applied to `req.params.id`. -/
def deleteStudent (id : String) : Js Response :=
  Js.tryCatch
    (do
      let result ← deleteOneById "students" id
      if !result then
        pure ⟨404, errorBody "Student not found"⟩
      else do
        let _ ← deleteCache ("student:" ++ id)
        pure ⟨200, messageBody "Student deleted successfully"⟩)
    (fun _ => pure ⟨500, errorBody "Internal server error"⟩)

/-! ### The two resources side by side -/

/-- The create handler of a resource. -/
def Resource.create : Resource → Record → Js Response
  | .course => createCourse
  | .student => createStudent

/-- The read-by-id handler of a resource. -/
def Resource.getById : Resource → String → Js Response
  | .course => getCourseById
  | .student => getStudentById

/-- The update handler of a resource. -/
def Resource.update : Resource → String → Record → Js Response
  | .course => updateCourse
  | .student => updateStudent

/-- The delete handler of a resource. -/
def Resource.delete : Resource → String → Js Response
  | .course => deleteCourse
  | .student => deleteStudent

/-- The request body passes the required-field check of the create
handler. -/
def Resource.validBody : Resource → Record → Bool
  | .course, body => (body.getProp "name").truthy && (body.getProp "duration").truthy
  | .student, body =>
    (body.getProp "name").truthy && (body.getProp "age").truthy
      && (body.getProp "courseIds").truthy

/-! ## `config/env.js` -/

/-- `requiredEnvVars` of `config/env.js`. -/
def requiredEnvVars : List String := ["MONGODB_URI", "MONGODB_DB_NAME", "REDIS_URI"]

/-- `process.env[name]` for the variables of the model. -/
def Env.lookup (env : Env) (name : String) : Option String :=
  if name = "MONGODB_URI" then env.MONGODB_URI
  else if name = "MONGODB_DB_NAME" then env.MONGODB_DB_NAME
  else if name = "REDIS_URI" then env.REDIS_URI
  else if name = "NODE_ENV" then env.NODE_ENV
  else if name = "PORT" then env.PORT
  else none

/-- `validateEnv` of `config/env.js`: `forEach` throws at the first required
variable that is unset or empty. -/
def validateEnv : Js Unit := fun w =>
  match requiredEnvVars.find? (fun envVar => envMissing (w.env.lookup envVar)) with
  | some envVar =>
    (.error (mkError ("La variable d\x27environnement " ++ envVar ++ " est manquante.")), w)
  | none => (.ok (), w)

/-- An environment value as a JavaScript value. -/
def envValue : Option String → JsVal
  | none => .undefined
  | some s => .str s

/-- `a || b`. -/
def JsVal.orElse (a b : JsVal) : JsVal := if a.truthy then a else b

/-- The object `module.exports` of `config/env.js`. -/
def config (env : Env) : Record :=
  [("mongodb", .obj [("uri", envValue env.MONGODB_URI), ("dbName", envValue env.MONGODB_DB_NAME)]),
    ("redis", .obj [("uri", envValue env.REDIS_URI)]),
    ("port", (envValue env.PORT).orElse (.num 3000))]

/-! ## `app.js` -/

/-- `process.exit(code)`: recorded as the last effect of the process. -/
def processExit (code : Nat) : Js Unit := fun w => (.ok (), w.emit (.exit code))

/-- The process has ended. -/
def World.exited (w : World) : Bool :=
  w.trace.any fun e => match e with
    | .exit _ => true
    | _ => false

/-- The statements that follow a call which may have ended the process:
`process.exit` does not return, so they run only while the process lives. -/
def Js.whileAlive (rest : Js Unit) : Js Unit := fun w =>
  if w.exited then (.ok (), w) else rest w

/-- The names that `module.exports` of `config/db.js` binds to a function,
each called for its effect. -/
def dbExport (name : String) : Option (Js Unit) :=
  if name = "connectMongo" then some connectMongo
  else if name = "connectRedis" then some connectRedis
  else if name = "closeConnections" then some closeConnections
  else if name = "getDb" then some (getDb >>= fun _ => pure ())
  else if name = "getRedisClient" then some (getRedisClient >>= fun _ => pure ())
  else none

/-- The call `db.name()` on the required module: a `TypeError` when the
module exports no such function. -/
def callDb (name : String) : Js Unit :=
  match dbExport name with
  | some f => f
  | none => Js.throw ⟨"TypeError", "db." ++ name ++ " is not a function"⟩

/-- `initializeDatabases` of `app.js`. -/
def initializeDatabases : Js Unit :=
  Js.tryCatch
    (do
      callDb "connectMongo"
      callDb "connectRedis")
    (fun _ => processExit 1)

/-- `setupRoutes` of `app.js`. -/
def setupRoutes : Js Unit := fun w =>
  (.ok (), (w.emit (.useRoutes "/courses")).emit (.useRoutes "/students"))

/-- `app.listen(port, ...)`. -/
def listen (port : JsVal) : Js Unit := fun w => (.ok (), w.emit (.listen port.toJsString))

/-- `startServer` of `app.js`. -/
def startServer : Js Unit :=
  Js.tryCatch
    (do
      initializeDatabases
      Js.whileAlive do
        setupRoutes
        let w ← Js.get
        let port := ((config w.env).getProp "PORT").orElse (.num 3000)
        listen port)
    (fun _ => processExit 1)

/-- The handler that `app.js` registers for `SIGTERM`. -/
def sigtermHandler : Js Unit :=
  Js.tryCatch
    (do
      callDb "closeMongo"
      callDb "closeRedis"
      processExit 0)
    (fun _ => processExit 1)

/-- Running `app.js`: requiring `config/env.js` runs `validateEnv` (an error
thrown there is not caught and ends the start-up), then `startServer()` is
called. -/
def appMain : Js Unit := do
  validateEnv
  startServer

/-! ## Notions used in the statements -/

/-- Effects on the document-store side: calls into the `mongodb` client and
retry timers for `connectMongo`. -/
def Event.onStoreSide : Event → Bool
  | .call op _ => op.isMongo
  | .setTimeout .connectMongo _ => true
  | .setTimeout .connectRedis _ => false
  | .useRoutes _ => false
  | .listen _ => false
  | .exit _ => false

/-- Retry timers. -/
def Event.isTimer : Event → Bool
  | .setTimeout _ _ => true
  | _ => false

/-- From `w` to `w1` only the document-store side was touched: the key-value
store and its client are as before and every new effect is on the store
side. -/
structure StoreStep (w w1 : World) : Prop where
  env : w1.env = w.env
  isValid : w1.isValid = w.isValid
  oidHex : w1.oidHex = w.oidHex
  fails : w1.fails = w.fails
  oidSupply : w1.oidSupply = w.oidSupply
  cache : w1.cache = w.cache
  redisClient : w1.redisClient = w.redisClient
  trace : ∃ es, w1.trace = w.trace ++ es ∧ ∀ e ∈ es, e.onStoreSide = true

/-- From `w` to `w1` only the cache side was touched: the document store and
its handles are as before and no new effect is on the store side. -/
structure CacheStep (w w1 : World) : Prop where
  env : w1.env = w.env
  isValid : w1.isValid = w.isValid
  oidHex : w1.oidHex = w.oidHex
  fails : w1.fails = w.fails
  oidSupply : w1.oidSupply = w.oidSupply
  store : w1.store = w.store
  mongoClient : w1.mongoClient = w.mongoClient
  db : w1.db = w.db
  oidUsed : w1.oidUsed = w.oidUsed
  trace : ∃ es, w1.trace = w.trace ++ es ∧ ∀ e ∈ es, e.onStoreSide = false

/-- The catch block of `connectMongo`, in closed form. -/
def mongoFailed (w : World) : Except JsError Unit × World :=
  if w.env.NODE_ENV = some "test" then
    (.error (mkError "MongoDB connection failed during tests"), w)
  else (.ok (), w.emit (.setTimeout .connectMongo 5000))

/-- The world after `mongoClient = new MongoClient(mongoUri)`. -/
def World.withMongoClient (w : World) : World :=
  { w with
    mongoClient := some w.clients
    clients := w.clients + 1
    trace := w.trace ++ [.call .newMongoClient (w.env.MONGODB_URI.getD "")] }

/-- The catch block of `connectRedis`, in closed form. -/
def redisFailed (w : World) : Except JsError Unit × World :=
  if w.env.NODE_ENV = some "test" then
    (.error (mkError "Redis connection failed during tests"), w)
  else (.ok (), w.emit (.setTimeout .connectRedis 5000))

/-- The world after `redisClient = redis.createClient({ url: redisUri })`. -/
def World.withRedisClient (w : World) : World :=
  { w with
    redisClient := some ⟨w.clients, false⟩
    clients := w.clients + 1
    trace := w.trace ++ [.call .createClient (w.env.REDIS_URI.getD "")] }

/-- The document store is configured and its client library works:
`connectMongo` will succeed. -/
def World.mongoUp (w : World) : Prop :=
  envMissing w.env.MONGODB_URI = false ∧ envMissing w.env.MONGODB_DB_NAME = false
    ∧ w.fails .newMongoClient = false ∧ w.fails .mongoConnect = false

/-- The key-value store is configured and its client library works:
`connectRedis` will succeed. -/
def World.redisUp (w : World) : Prop :=
  envMissing w.env.REDIS_URI = false ∧ w.fails .createClient = false
    ∧ w.fails .redisOn = false ∧ w.fails .redisConnect = false

/-- The world after a successful `connectMongo`. -/
def World.mongoConnected (w : World) : World :=
  { w.withMongoClient.emit (.call .mongoConnect "") with
    db := some ⟨w.clients, w.env.MONGODB_DB_NAME.getD ""⟩ }

/-- The world after a successful `connectRedis`. -/
def World.redisConnected (w : World) : World :=
  { ((w.withRedisClient.emit (.call .redisOn "connect")).emit
        (.call .redisOn "error")).emit (.call .redisConnect "") with
    redisClient := some ⟨w.clients, true⟩ }

/-- The object literal that the create and update handlers of a resource
build from the request body. -/
def Resource.fields : Resource → Record → Record
  | .course, body => [("name", body.getProp "name"), ("duration", body.getProp "duration")]
  | .student, body =>
    [("name", body.getProp "name"), ("age", body.getProp "age"),
      ("courseIds", body.getProp "courseIds")]

/-- The body of the 404 response of a resource. -/
def Resource.notFound : Resource → JsVal
  | .course => errorBody "Course not found"
  | .student => errorBody "Student not found"

/-- The body of the 200 response of the delete handler of a resource. -/
def Resource.deleted : Resource → JsVal
  | .course => messageBody "Course deleted successfully"
  | .student => messageBody "Student deleted successfully"

/-- The body of every 500 response. -/
def internalError : JsVal := errorBody "Internal server error"

/-- The cache entry that `cacheData(key, r, ttl)` writes for a record. -/
def entryFor (r : Record) (ttl : Nat) : CacheEntry :=
  ⟨String.mk (serialize (.obj r)), ttl⟩

/-! ## Sample worlds -/

/-- `ObjectId.isValid` on strings as in current drivers: 24 hexadecimal
digits. -/
def hex24 (id : String) : Bool :=
  id.data.length = 24 && id.data.all fun c => (hexVal c).isSome

/-- The hexadecimal form of `new ObjectId(id)` for a 24-digit `id`. -/
def lowerHex (id : String) : String := String.mk (id.data.map Char.toLower)

/-- A process that has just started with all three variables configured:
nothing is connected, both stores are empty, every library call succeeds. -/
def freshWorld : World where
  env := ⟨some "mongodb://localhost:27017", some "learning", some "redis://localhost:6379",
    none, none⟩
  isValid := hex24
  oidHex := lowerHex
  fails := fun _ => false
  oidSupply := fun n => if n = 0 then "507f1f77bcf86cd799439011" else "507f191e810c19729de860ea"
  store := fun _ => []
  cache := fun _ => none
  mongoClient := none
  redisClient := none
  db := none
  clients := 0
  oidUsed := 0
  trace := []

/-- The fresh process when the document store cannot be reached. -/
def mongoDownWorld : World :=
  { freshWorld with fails := fun op => decide (op = .mongoConnect) }

/-- The fresh process when neither store can be reached, run with
`NODE_ENV=test`. -/
def testDownWorld : World :=
  { freshWorld with
    env := { freshWorld.env with NODE_ENV := some "test" }
    fails := fun op => decide (op = .mongoConnect) || decide (op = .redisConnect) }

/-- The fresh process after one successful `connectMongo` and one
successful `connectRedis`. -/
def connectedWorld : World := (connectRedis (connectMongo freshWorld).2).2

/-- A well-formed identifier. -/
def sampleId : String := "507f1f77bcf86cd799439011"

/-- A course document as the store returns it. -/
def sampleCourse : Record :=
  [("_id", .oid sampleId), ("name", .str "Algorithms"), ("duration", .num 40)]

/-- The request body of `POST /courses` for that course. -/
def courseBody : Record := [("name", .str "Algorithms"), ("duration", .num 40)]

/-- The record that `createCourse` returns for `courseBody` in the fresh
process. -/
def createdCourse : Record :=
  [("name", .str "Algorithms"), ("duration", .num 40), ("_id", .oid sampleId)]

/-- The fresh process with `sampleCourse` in the store and an empty cache. -/
def storedWorld : World :=
  { freshWorld with store := fun c => if c = "courses" then [sampleCourse] else [] }

/-- The fresh process with an empty store and a cache entry left over for
`sampleCourse`. -/
def staleCacheWorld : World :=
  { freshWorld with
    cache := fun k => if k = "course:" ++ sampleId then some (entryFor sampleCourse 3600)
      else none }

/-- The fresh process when the key-value store refuses `SET`. -/
def cacheDownWorld : World :=
  { freshWorld with fails := fun op => decide (op = .redisSet) }

/-- The fresh process after `createCourse` with `courseBody`. -/
def createdWorld : World := (createCourse courseBody freshWorld).2

/-- The request body of a `PUT /courses/:id` that gives both fields. -/
def updateBody : Record := [("name", .str "Algorithms"), ("duration", .num 45)]

/-- The document `sampleCourse` after the update with `updateBody`. -/
def updatedCourse : Record :=
  [("_id", .oid sampleId), ("name", .str "Algorithms"), ("duration", .num 45)]

/-- The fresh process with `PORT=8080`. -/
def port8080World : World :=
  { freshWorld with env := { freshWorld.env with PORT := some "8080" } }

/-- The fresh process, outside test mode, after the three required variables
have been removed from its environment (`delete process.env.MONGODB_URI`,
...): the modules are loaded, `process.env` no longer has the variables. -/
def noConfigWorld : World :=
  { freshWorld with env := ⟨none, none, none, none, none⟩ }

/-- A process with both connections established whose MongoDB client fails
to close. -/
def closeFailsWorld : World :=
  { connectedWorld with fails := fun op => decide (op = .mongoClose) }

/-- Effects of `app.js` itself: mounting routers, listening, exiting. -/
def Event.isAppEvent : Event → Bool
  | .useRoutes _ => true
  | .listen _ => true
  | .exit _ => true
  | _ => false

/-! ## Evaluation of asynchronous code -/

@[simp] theorem run_bind {α β : Type} (m : Js α) (f : α → Js β) (w : World) :
    (m >>= f) w =
      match m w with
      | (.ok a, w1) => f a w1
      | (.error e, w1) => (.error e, w1) := rfl

@[simp] theorem run_pure {α : Type} (a : α) (w : World) :
    (Pure.pure a : Js α) w = (.ok a, w) := rfl

@[simp] theorem run_throw {α : Type} (e : JsError) (w : World) :
    (Js.throw e : Js α) w = (.error e, w) := rfl

@[simp] theorem run_tryCatch {α : Type} (body : Js α) (handler : JsError → Js α)
    (w : World) :
    Js.tryCatch body handler w =
      match body w with
      | (.ok a, w1) => (.ok a, w1)
      | (.error e, w1) => handler e w1 := rfl

@[simp] theorem run_get (w : World) : Js.get w = (.ok w, w) := rfl

@[simp] theorem run_modify (f : World → World) (w : World) :
    Js.modify f w = (.ok (), f w) := rfl

@[simp] theorem run_ite {α : Type} (c : Prop) [Decidable c] (m1 m2 : Js α) (w : World) :
    (if c then m1 else m2) w = if c then m1 w else m2 w := by
  split <;> rfl

/-! ## JSON facts -/

theorem parseMembers_obj (fuel : Nat) :
    ∀ (cs : List Char) (acc : Record) (v : JsVal) (r : List Char),
      parseMembers fuel cs acc = some (v, r) → ∃ fs, v = .obj fs := by
  induction fuel with
  | zero => intro cs acc v r h; simp [parseMembers] at h
  | succ n ih =>
    intro cs acc v r h
    rw [parseMembers] at h
    split at h
    · simp at h
    · split at h
      · split at h
        · simp at h
        · split at h
          · split at h
            · simp at h
            · split at h
              · simp at h
              · split at h
                · exact ih _ _ _ _ h
                · split at h
                  · simp at h
                    exact ⟨_, h.1.symm⟩
                  · simp at h
          · simp at h
      · simp at h

theorem parseValue_brace (fuel : Nat) (rest : List Char) (v : JsVal) (r : List Char)
    (h : parseValue fuel (Char.ofNat 123 :: rest) = some (v, r)) : ∃ fs, v = .obj fs := by
  cases fuel with
  | zero => simp [parseValue] at h
  | succ n =>
    have hs : skipWs (Char.ofNat 123 :: rest) = Char.ofNat 123 :: rest := by
      simp [skipWs, isWs]
    rw [parseValue, hs] at h
    split at h
    · simp at h
    · rename_i heq; simp at heq
    · rename_i heq; simp at heq
    · rename_i heq; simp at heq
    · rename_i c rest2 _ _ _ heq
      simp at heq
      obtain ⟨rfl, rfl⟩ := heq
      have h1 : ¬ (Char.ofNat 123 = dq) := by decide
      have h2 : ¬ (Char.ofNat 123 = '[') := by decide
      have h3 : (Char.ofNat 123).toNat = 123 := by decide
      rw [if_neg h1, if_neg h2, if_pos h3] at h
      split at h
      · simp at h
      · split at h
        · simp at h
          exact ⟨_, h.1.symm⟩
        · exact parseMembers_obj _ _ _ _ _ h

theorem parseText_serialize_obj (fs : Record) (v : JsVal)
    (h : JSON.parseText (String.mk (serialize (.obj fs))) = .ok v) : ∃ gs, v = .obj gs := by
  unfold JSON.parseText at h
  simp only [serialize] at h
  split at h
  · simp at h
  · rename_i v1 rest heq
    split at h
    · simp at h
      subst h
      exact parseValue_brace _ _ _ _ heq
    · simp at h

theorem parse_obj_throws (fs : Record) : JSON.parse (.obj fs) = .error jsonSyntaxError := by
  rfl

theorem serialize_obj_truthy (fs : Record) :
    (JsVal.str (String.mk (serialize (.obj fs)))).truthy = true := by
  have hne : String.mk (serialize (.obj fs)) ≠ "" := by
    intro h
    have h2 := congrArg String.data h
    simp [serialize] at h2
  simp [JsVal.truthy, hne]

/-! ## Numbers in JSON text -/

theorem digitChar_isDigit (r : Nat) (h : r < 10) :
    (Nat.digitChar r).isDigit = true ∧ (Nat.digitChar r).toNat - 48 = r
      ∧ (r ≠ 0 → Nat.digitChar r ≠ '0') := by
  interval_cases r <;> refine ⟨by decide, by decide, by decide⟩

theorem takeDigits_toDigitsCore (n : Nat) :
    ∀ fuel, n < fuel → ∀ ds rest,
      takeDigits (Nat.toDigitsCore 10 fuel n ds ++ rest) 0 = takeDigits (ds ++ rest) n := by
  induction n using Nat.strong_induction_on with
  | _ n ih =>
    intro fuel hf ds rest
    cases fuel with
    | zero => omega
    | succ f =>
      obtain ⟨hd, hv, -⟩ := digitChar_isDigit (n % 10) (Nat.mod_lt _ (by decide))
      rw [Nat.toDigitsCore]
      by_cases h0 : n / 10 = 0
      · simp only [h0, if_true]
        have hn : n % 10 = n := Nat.mod_eq_of_lt (by omega)
        rw [hn] at hd hv
        simp only [hn, List.cons_append, takeDigits, hd, if_true, hv]
        simp
      · simp only [h0, if_false]
        rw [ih (n / 10) (by omega) f (by omega)]
        simp only [List.cons_append, takeDigits, hd, if_true, hv]
        congr 1
        omega

theorem toDigitsCore_head (n : Nat) :
    ∀ fuel, n < fuel → 0 < n → ∀ ds,
      ∃ c t, Nat.toDigitsCore 10 fuel n ds = c :: t ∧ c.isDigit = true ∧ c ≠ '0' := by
  induction n using Nat.strong_induction_on with
  | _ n ih =>
    intro fuel hf hpos ds
    cases fuel with
    | zero => omega
    | succ f =>
      rw [Nat.toDigitsCore]
      by_cases h0 : n / 10 = 0
      · simp only [h0, if_true]
        have hn : n % 10 = n := Nat.mod_eq_of_lt (by omega)
        obtain ⟨hd, -, hz⟩ := digitChar_isDigit (n % 10) (Nat.mod_lt _ (by decide))
        exact ⟨_, _, rfl, hd, hz (by omega)⟩
      · simp only [h0, if_false]
        exact ih (n / 10) (by omega) f (by omega) (by omega) _

theorem takeDigits_stop (rest : List Char) (n : Nat)
    (h : ∀ c t, rest = c :: t → c.isDigit = false) : takeDigits rest n = (n, rest) := by
  cases rest with
  | nil => rfl
  | cons c t => simp [takeDigits, h c t rfl]

theorem parseNat_toDigits (m : Nat) (rest : List Char)
    (h : ∀ c t, rest = c :: t → c.isDigit = false) :
    parseNat (Nat.toDigits 10 m ++ rest) = some (m, rest) := by
  by_cases hm : m = 0
  · subst hm
    simp [Nat.toDigits, Nat.toDigitsCore, parseNat, Nat.digitChar]
  · obtain ⟨c, t, hct, hd, hz⟩ := toDigitsCore_head m (m + 1) (by omega) (by omega) []
    have htake := takeDigits_toDigitsCore m (m + 1) (by omega) [] rest
    unfold Nat.toDigits
    rw [hct] at htake ⊢
    simp only [List.cons_append, takeDigits, hd, if_true, List.nil_append] at htake
    simp only [List.cons_append, parseNat, hz, if_false, hd, if_true]
    simp only [Nat.zero_mul, Nat.zero_add] at htake
    have htake2 : takeDigits (t ++ rest) (c.toNat - 48) = takeDigits rest m := htake
    rw [htake2, takeDigits_stop rest m h]

theorem char_of_toNat (c : Char) (n : Nat) (h : c.toNat = n) : c = Char.ofNat n := by
  rw [← h, Char.ofNat_toNat]

theorem endsValue_not_digit (rest : List Char) (h : endsValue rest = true) :
    ∀ c t, rest = c :: t → c.isDigit = false := by
  intro c t hr
  subst hr
  simp only [endsValue, Bool.or_eq_true, decide_eq_true_eq] at h
  rcases h with (h | h) | h
  · subst h; decide
  · subst h; decide
  · rw [char_of_toNat c 125 h]; decide

theorem toDigits_head (m : Nat) :
    ∃ c t, Nat.toDigits 10 m = c :: t ∧ c.isDigit = true := by
  by_cases hm : m = 0
  · subst hm
    exact ⟨'0', [], by simp [Nat.toDigits, Nat.toDigitsCore, Nat.digitChar], by decide⟩
  · obtain ⟨c, t, hct, hd, -⟩ := toDigitsCore_head m (m + 1) (by omega) (by omega) []
    exact ⟨c, t, hct, hd⟩

theorem toString_ofNat_data (m : Nat) : (toString (Int.ofNat m)).data = Nat.toDigits 10 m := rfl

theorem toString_negSucc_data (m : Nat) :
    (toString (Int.negSucc m)).data = '-' :: Nat.toDigits 10 (m + 1) := rfl

theorem number_end (rest : List Char) (v : JsVal) :
    endsValue rest = true →
    (match rest with
      | '.' :: _ => none
      | 'e' :: _ => none
      | 'E' :: _ => none
      | _ => some (v, rest)) = some (v, rest) := by
  cases rest with
  | nil => intro _; rfl
  | cons c t =>
    intro h
    simp only [endsValue, Bool.or_eq_true, decide_eq_true_eq] at h
    rcases h with (h | h) | h
    · subst h; rfl
    · subst h; rfl
    · rw [char_of_toNat c 125 h]; rfl

theorem parseNumber_toString (n : Int) (rest : List Char) (h : endsValue rest = true) :
    parseNumber ((toString n).data ++ rest) = some (.num n, rest) := by
  have hstop := endsValue_not_digit rest h
  cases n with
  | ofNat m =>
    obtain ⟨c, t, hct, hd⟩ := toDigits_head m
    have hp := parseNat_toDigits m rest hstop
    rw [toString_ofNat_data]
    rw [hct] at hp ⊢
    have hne : c ≠ '-' := by
      intro hc
      subst hc
      simp at hd
    unfold parseNumber
    split
    · rename_i heq
      simp only [List.cons_append, List.cons.injEq] at heq
      exact absurd heq.1 hne
    · simp only [hp, Option.map_some']
      exact number_end rest _ h
  | negSucc m =>
    have hp := parseNat_toDigits (m + 1) rest hstop
    rw [toString_negSucc_data]
    unfold parseNumber
    simp only [List.cons_append, hp, Option.map_some']
    exact number_end rest _ h

/-! ## Strings in JSON text -/

theorem parseStringBody_control (n : Nat) (hn : n < 32) (t acc : List Char) :
    parseStringBody (escapeChar (Char.ofNat n) ++ t) acc
      = parseStringBody t (Char.ofNat n :: acc) := by
  interval_cases n <;> rfl

theorem parseStringBody_escape (c : Char) (t acc : List Char) :
    parseStringBody (escapeChar c ++ t) acc = parseStringBody t (c :: acc) := by
  by_cases hlt : c.toNat < 32
  · have hc := char_of_toNat c c.toNat rfl
    rw [hc]
    exact parseStringBody_control c.toNat hlt t acc
  · by_cases hq : c = dq
    · subst hq; rfl
    · by_cases hb : c = bsl
      · subst hb; rfl
      · have h8 : ¬ c.toNat = 8 := by omega
        have h12 : ¬ c.toNat = 12 := by omega
        have h10 : ¬ c.toNat = 10 := by omega
        have h13 : ¬ c.toNat = 13 := by omega
        have h9 : ¬ c.toNat = 9 := by omega
        simp only [escapeChar, hq, hb, h8, h12, h10, h13, h9, hlt, if_false, List.cons_append,
          List.nil_append]
        rw [parseStringBody.eq_def]
        simp only [hq, hb, hlt, if_false]

theorem parseStringBody_quoted (s : List Char) :
    ∀ (rest acc : List Char),
      parseStringBody (s.flatMap escapeChar ++ dq :: rest) acc
        = some (String.mk (acc.reverse ++ s), rest) := by
  induction s with
  | nil =>
    intro rest acc
    rw [List.flatMap_nil, List.nil_append, parseStringBody.eq_def]
    simp
  | cons c cs ih =>
    intro rest acc
    rw [List.flatMap_cons, List.append_assoc, parseStringBody_escape, ih]
    simp

/-! ## Reading a value -/

theorem parseValue_null (f : Nat) (rest : List Char) :
    parseValue (f + 1) ("null".data ++ rest) = some (.null, rest) := rfl

theorem parseValue_true (f : Nat) (rest : List Char) :
    parseValue (f + 1) ("true".data ++ rest) = some (.bool true, rest) := rfl

theorem parseValue_false (f : Nat) (rest : List Char) :
    parseValue (f + 1) ("false".data ++ rest) = some (.bool false, rest) := rfl

theorem parseValue_quote (f : Nat) (t : List Char) :
    parseValue (f + 1) (dq :: t) = (parseStringBody t []).map fun p => (.str p.1, p.2) := rfl

theorem parseValue_bracket (f : Nat) (t : List Char) :
    parseValue (f + 1) ('[' :: t)
      = match skipWs t with
        | ']' :: r => some (.arr [], r)
        | r => parseElems f r [] := rfl

theorem parseValue_openBrace (f : Nat) (t : List Char) :
    parseValue (f + 1) (Char.ofNat 123 :: t)
      = match skipWs t with
        | [] => none
        | d :: r =>
          if d.toNat = 125 then some (.obj [], r) else parseMembers f (d :: r) [] := rfl

theorem isDigit_bounds (c : Char) (h : c.isDigit = true) : 48 ≤ c.toNat ∧ c.toNat ≤ 57 := by
  simp only [Char.isDigit, Bool.and_eq_true, decide_eq_true_eq] at h
  obtain ⟨h1, h2⟩ := h
  have a : (48 : UInt32).toNat ≤ c.val.toNat := h1
  have b : c.val.toNat ≤ (57 : UInt32).toNat := h2
  exact ⟨a, b⟩

theorem parseValue_digit (f n : Nat) (h1 : 48 ≤ n) (h2 : n ≤ 57) (t : List Char) :
    parseValue (f + 1) (Char.ofNat n :: t) = parseNumber (Char.ofNat n :: t) := by
  interval_cases n <;> rfl

theorem parseValue_number (f : Nat) (c : Char) (t : List Char)
    (hc : c.isDigit = true ∨ c = '-') :
    parseValue (f + 1) (c :: t) = parseNumber (c :: t) := by
  rcases hc with hd | hm
  · obtain ⟨h1, h2⟩ := isDigit_bounds c hd
    rw [char_of_toNat c c.toNat rfl]
    exact parseValue_digit f c.toNat h1 h2 t
  · subst hm
    rfl

theorem toString_int_head (n : Int) :
    ∃ c t, (toString n).data = c :: t ∧ (c.isDigit = true ∨ c = '-') := by
  cases n with
  | ofNat m =>
    obtain ⟨c, t, hct, hd⟩ := toDigits_head m
    exact ⟨c, t, by rw [toString_ofNat_data, hct], Or.inl hd⟩
  | negSucc m => exact ⟨'-', _, toString_negSucc_data m, Or.inr rfl⟩

theorem parseValue_num (f : Nat) (n : Int) (rest : List Char) (h : endsValue rest = true) :
    parseValue (f + 1) ((toString n).data ++ rest) = some (.num n, rest) := by
  obtain ⟨c, t, hct, hc⟩ := toString_int_head n
  have hp := parseNumber_toString n rest h
  rw [hct] at hp ⊢
  rw [List.cons_append] at hp ⊢
  rw [parseValue_number f c _ hc, hp]

theorem parseValue_string (f : Nat) (s : String) (rest : List Char) :
    parseValue (f + 1) (quoteString s ++ rest) = some (.str s, rest) := by
  unfold quoteString
  rw [List.cons_append, parseValue_quote, List.append_assoc, List.singleton_append,
    parseStringBody_quoted]
  simp

/-- The text of a value never starts with white space or a closing
bracket. -/
theorem serialize_head (v : JsVal) :
    ∃ c t, serialize v = c :: t ∧ isWs c = false ∧ c ≠ ']' := by
  cases v with
  | undefined => exact ⟨'n', _, rfl, by decide, by decide⟩
  | null => exact ⟨'n', _, rfl, by decide, by decide⟩
  | bool b =>
    cases b
    · exact ⟨'f', _, rfl, by decide, by decide⟩
    · exact ⟨'t', _, rfl, by decide, by decide⟩
  | num n =>
    obtain ⟨c, t, hct, hc⟩ := toString_int_head n
    refine ⟨c, t, by rw [serialize, hct], ?_, ?_⟩
    · rcases hc with hd | hm
      · obtain ⟨h1, h2⟩ := isDigit_bounds c hd
        simp only [isWs, Bool.or_eq_false_iff, decide_eq_false_iff_not]
        omega
      · subst hm; decide
    · rcases hc with hd | hm
      · intro h; subst h; simp at hd
      · subst hm; decide
  | str s => exact ⟨dq, _, rfl, by decide, by decide⟩
  | oid h => exact ⟨dq, _, rfl, by decide, by decide⟩
  | arr xs => exact ⟨'[', _, by rw [serialize], by decide, by decide⟩
  | obj fs => exact ⟨Char.ofNat 123, _, by rw [serialize], by decide, by decide⟩

theorem skipWs_cons (c : Char) (t : List Char) (h : isWs c = false) :
    skipWs (c :: t) = c :: t := by
  simp [skipWs, h]

theorem elems_dispatch (f : Nat) (c : Char) (t : List Char) (hws : isWs c = false)
    (hc : c ≠ ']') :
    (match skipWs (c :: t) with
      | ']' :: r => some (JsVal.arr [], r)
      | r => parseElems f r []) = parseElems f (c :: t) [] := by
  rw [skipWs_cons c t hws]
  split
  · rename_i heq
    simp only [List.cons.injEq] at heq
    exact absurd heq.1 hc
  · rfl

theorem parseElems_step (g : Nat) (cs : List Char) (acc : List JsVal) :
    parseElems (g + 1) cs acc
      = match parseValue g cs with
        | none => none
        | some (v, r) =>
          match skipWs r with
          | ',' :: r2 => parseElems g r2 (v :: acc)
          | ']' :: r2 => some (.arr (v :: acc).reverse, r2)
          | _ => none := rfl

theorem parseMembers_step (g : Nat) (k : String) (t : List Char) (acc : Record) :
    parseMembers (g + 1) (quoteString k ++ ':' :: t) acc
      = match parseValue g t with
        | none => none
        | some (v, r3) =>
          match skipWs r3 with
          | [] => none
          | d :: r4 =>
            if d = ',' then parseMembers g r4 (Record.setProp acc k v)
            else if d.toNat = 125 then some (.obj (Record.setProp acc k v), r4)
            else none := by
  have hq : quoteString k ++ ':' :: t
      = dq :: (k.data.flatMap escapeChar ++ dq :: (':' :: t)) := by
    simp [quoteString]
  rw [hq, parseMembers]
  have h1 : skipWs (dq :: (k.data.flatMap escapeChar ++ dq :: (':' :: t)))
      = dq :: (k.data.flatMap escapeChar ++ dq :: (':' :: t)) := skipWs_cons _ _ (by decide)
  have h2 : skipWs (':' :: t) = ':' :: t := skipWs_cons _ _ (by decide)
  simp only [h1, parseStringBody_quoted, List.reverse_nil, List.nil_append, h2, if_true]

theorem setProp_append (acc : Record) (k : String) (v : JsVal)
    (h : k ∉ acc.map Prod.fst) : Record.setProp acc k v = acc ++ [(k, v)] := by
  induction acc with
  | nil => rfl
  | cons kv rest ih =>
    obtain ⟨k1, v1⟩ := kv
    simp only [List.map_cons, List.mem_cons, not_or] at h
    have hne : ¬ k1 = k := fun e => h.1 e.symm
    simp [Record.setProp, hne, ih h.2]

theorem jsonSafe_ne_undefined (v : JsVal) (h : jsonSafe v = true) : v ≠ .undefined := by
  intro hv
  subst hv
  simp [jsonSafe] at h

theorem serializeMembers_cons (k : String) (v : JsVal) (fs : List (String × JsVal))
    (sep : Bool) (hv : v ≠ .undefined) :
    serialize.serializeMembers ((k, v) :: fs) sep
      = (if sep then [','] else []) ++ quoteString k ++ ':' :: serialize v
          ++ serialize.serializeMembers fs true := by
  cases v <;> first | exact absurd rfl hv | (rw [serialize.serializeMembers]; exact hv)

theorem serializeMembers_sep (fs : List (String × JsVal)) (hne : fs ≠ [])
    (hs : jsonSafe.safeFields fs = true) :
    serialize.serializeMembers fs true = ',' :: serialize.serializeMembers fs false := by
  cases fs with
  | nil => exact absurd rfl hne
  | cons kv rest =>
    obtain ⟨k, v⟩ := kv
    simp only [jsonSafe.safeFields, Bool.and_eq_true] at hs
    have hv := jsonSafe_ne_undefined v hs.1
    rw [serializeMembers_cons k v rest true hv, serializeMembers_cons k v rest false hv]
    simp

theorem serializeElems_two (x y : JsVal) (ys : List JsVal) :
    serialize.serializeElems (x :: y :: ys)
      = serialize x ++ ',' :: serialize.serializeElems (y :: ys) := by
  rw [serialize.serializeElems]
  intro h
  cases h

theorem serializeElems_head (x : JsVal) (xs : List JsVal) (rest : List Char) :
    ∃ c t, serialize.serializeElems (x :: xs) ++ rest = c :: t ∧ isWs c = false ∧ c ≠ ']' := by
  obtain ⟨c, t, hct, hws, hc⟩ := serialize_head x
  cases xs with
  | nil => exact ⟨c, t ++ rest, by rw [serialize.serializeElems, hct, List.cons_append], hws, hc⟩
  | cons y ys =>
    exact ⟨c, _, by rw [serializeElems_two, hct, List.cons_append, List.cons_append],
      hws, hc⟩

theorem exists_succ_of_pos (f n : Nat) (h : 1 + n ≤ f) : ∃ g, f = g + 1 ∧ n ≤ g :=
  ⟨f - 1, by omega, by omega⟩

mutual
/-- Reading back the text of a value gives its JSON form. -/
theorem parseValue_serialize :
    ∀ (v : JsVal), jsonSafe v = true → ∀ (f : Nat) (rest : List Char),
      jsonSize v ≤ f → endsValue rest = true →
      parseValue f (serialize v ++ rest) = some (jsonForm v, rest)
  | .undefined, h, _, _, _, _ => by simp [jsonSafe] at h
  | .null, _, f, rest, hf, _ => by
    obtain ⟨g, rfl, -⟩ := exists_succ_of_pos f 0 (by simpa [jsonSize] using hf)
    exact parseValue_null g rest
  | .bool true, _, f, rest, hf, _ => by
    obtain ⟨g, rfl, -⟩ := exists_succ_of_pos f 0 (by simpa [jsonSize] using hf)
    exact parseValue_true g rest
  | .bool false, _, f, rest, hf, _ => by
    obtain ⟨g, rfl, -⟩ := exists_succ_of_pos f 0 (by simpa [jsonSize] using hf)
    exact parseValue_false g rest
  | .num n, _, f, rest, hf, he => by
    obtain ⟨g, rfl, -⟩ := exists_succ_of_pos f 0 (by simpa [jsonSize] using hf)
    exact parseValue_num g n rest he
  | .str s, _, f, rest, hf, _ => by
    obtain ⟨g, rfl, -⟩ := exists_succ_of_pos f 0 (by simpa [jsonSize] using hf)
    exact parseValue_string g s rest
  | .oid h, _, f, rest, hf, _ => by
    obtain ⟨g, rfl, -⟩ := exists_succ_of_pos f 0 (by simpa [jsonSize] using hf)
    exact parseValue_string g h rest
  | .arr xs, h, f, rest, hf, _ => by
    have ih := parseElems_serialize xs
    obtain ⟨g, rfl, hg⟩ := exists_succ_of_pos f (jsonSize.sizeElems xs)
      (by simpa [jsonSize] using hf)
    have hs : jsonSafe.safeElems xs = true := by simpa [jsonSafe] using h
    rw [serialize, jsonForm, List.cons_append, List.append_assoc, List.singleton_append,
      parseValue_bracket]
    cases xs with
    | nil => rfl
    | cons x xs =>
      obtain ⟨c, t, hct, hws, hc⟩ := serializeElems_head x xs (']' :: rest)
      rw [hct, elems_dispatch g c t hws hc, ← hct]
      rw [ih (by simp) hs g rest [] hg]
      simp
  | .obj fs, h, f, rest, hf, _ => by
    have ih := parseMembers_serialize fs
    obtain ⟨g, rfl, hg⟩ := exists_succ_of_pos f (jsonSize.sizeFields fs)
      (by simpa [jsonSize] using hf)
    simp only [jsonSafe, Bool.and_eq_true, decide_eq_true_eq] at h
    rw [serialize, jsonForm, List.cons_append, List.append_assoc, List.singleton_append,
      parseValue_openBrace]
    cases fs with
    | nil => rfl
    | cons kv fs =>
      obtain ⟨k, v⟩ := kv
      have hv : v ≠ .undefined := by
        have := h.1
        simp only [jsonSafe.safeFields, Bool.and_eq_true] at this
        exact jsonSafe_ne_undefined v this.1
      have hhead : serialize.serializeMembers ((k, v) :: fs) false ++ Char.ofNat 125 :: rest
          = dq :: (k.data.flatMap escapeChar ++ [dq] ++ ':' :: serialize v
              ++ serialize.serializeMembers fs true ++ Char.ofNat 125 :: rest) := by
        rw [serializeMembers_cons k v fs false hv]
        simp [quoteString]
      have hih := ih (by simp) h.1 g rest [] hg (by simpa using h.2)
      rw [hhead] at hih ⊢
      rw [skipWs_cons dq _ (by decide)]
      simp only [show ¬ (dq.toNat = 125) from by decide, if_false]
      rw [hih]
      simp
/-- Reading back the elements of a non-empty array. -/
theorem parseElems_serialize :
    ∀ (xs : List JsVal), xs ≠ [] → jsonSafe.safeElems xs = true →
      ∀ (f : Nat) (rest : List Char) (acc : List JsVal), jsonSize.sizeElems xs ≤ f →
      parseElems f (serialize.serializeElems xs ++ ']' :: rest) acc
        = some (.arr (acc.reverse ++ jsonForm.formElems xs), rest)
  | [], hne, _, _, _, _, _ => absurd rfl hne
  | [x], _, hs, f, rest, acc, hf => by
    have ihv := parseValue_serialize x
    simp only [jsonSafe.safeElems, Bool.and_eq_true, and_true] at hs
    obtain ⟨g, rfl, hg⟩ := exists_succ_of_pos f (jsonSize x)
      (by simp only [jsonSize.sizeElems] at hf; omega)
    rw [parseElems_step, serialize.serializeElems, ihv hs g (']' :: rest) hg rfl]
    simp only [skipWs_cons ']' rest (by decide)]
    simp [jsonForm.formElems]
  | x :: y :: ys, _, hs, f, rest, acc, hf => by
    have ihv := parseValue_serialize x
    have ihe := parseElems_serialize (y :: ys)
    simp only [jsonSafe.safeElems, Bool.and_eq_true] at hs
    simp only [jsonSize.sizeElems] at hf
    obtain ⟨g, rfl, hg⟩ := exists_succ_of_pos f
      (jsonSize x + (1 + jsonSize y + jsonSize.sizeElems ys)) (by omega)
    rw [parseElems_step, serializeElems_two, List.append_assoc, List.cons_append,
      ihv hs.1 g (',' :: (serialize.serializeElems (y :: ys) ++ ']' :: rest)) (by omega) rfl]
    simp only [skipWs_cons ',' _ (by decide)]
    rw [ihe (by simp) (by simpa [jsonSafe.safeElems] using hs.2) g rest (jsonForm x :: acc)
      (by simp only [jsonSize.sizeElems]; omega)]
    simp [jsonForm.formElems]
/-- Reading back the members of a non-empty object. -/
theorem parseMembers_serialize :
    ∀ (fs : List (String × JsVal)), fs ≠ [] → jsonSafe.safeFields fs = true →
      ∀ (f : Nat) (rest : List Char) (acc : Record), jsonSize.sizeFields fs ≤ f →
      (acc.map Prod.fst ++ fs.map Prod.fst).Nodup →
      parseMembers f (serialize.serializeMembers fs false ++ Char.ofNat 125 :: rest) acc
        = some (.obj (acc ++ jsonForm.formFields fs), rest)
  | [], hne, _, _, _, _, _, _ => absurd rfl hne
  | [(k, v)], _, hs, f, rest, acc, hf, hnd => by
    have ihv := parseValue_serialize v
    simp only [jsonSafe.safeFields, Bool.and_eq_true, and_true] at hs
    have hv := jsonSafe_ne_undefined v hs
    obtain ⟨g, rfl, hg⟩ := exists_succ_of_pos f (jsonSize v)
      (by simp only [jsonSize.sizeFields] at hf; omega)
    have hk : k ∉ acc.map Prod.fst := by
      intro hmem
      have := List.nodup_append.mp hnd
      exact this.2.2 hmem (by simp)
    rw [serializeMembers_cons k v [] false hv]
    simp only [Bool.false_eq_true, if_false, List.nil_append, serialize.serializeMembers,
      List.append_nil, List.append_assoc, List.cons_append]
    rw [parseMembers_step, ihv hs g (Char.ofNat 125 :: rest) hg rfl]
    simp only [skipWs_cons (Char.ofNat 125) rest (by decide)]
    simp [setProp_append acc k _ hk, jsonForm.formFields]
  | (k, v) :: (k2, v2) :: fs, _, hs, f, rest, acc, hf, hnd => by
    have ihv := parseValue_serialize v
    have ihm := parseMembers_serialize ((k2, v2) :: fs)
    simp only [jsonSafe.safeFields, Bool.and_eq_true] at hs
    have hv := jsonSafe_ne_undefined v hs.1
    have hs2 : jsonSafe.safeFields ((k2, v2) :: fs) = true := by
      simpa [jsonSafe.safeFields] using hs.2
    simp only [jsonSize.sizeFields] at hf
    obtain ⟨g, rfl, hg⟩ := exists_succ_of_pos f
      (jsonSize v + (1 + jsonSize v2 + jsonSize.sizeFields fs)) (by omega)
    have hk : k ∉ acc.map Prod.fst := by
      intro hmem
      have := List.nodup_append.mp hnd
      exact this.2.2 hmem (by simp)
    have hnd2 : ((acc ++ [(k, jsonForm v)]).map Prod.fst
        ++ ((k2, v2) :: fs).map Prod.fst).Nodup := by
      simpa [List.append_assoc] using hnd
    rw [serializeMembers_cons k v ((k2, v2) :: fs) false hv,
      serializeMembers_sep ((k2, v2) :: fs) (by simp) hs2]
    simp only [Bool.false_eq_true, if_false, List.nil_append, List.append_assoc,
      List.cons_append]
    rw [parseMembers_step,
      ihv hs.1 g (',' :: (serialize.serializeMembers ((k2, v2) :: fs) false
        ++ Char.ofNat 125 :: rest)) (by omega) rfl]
    simp only [skipWs_cons ',' _ (by decide), if_true]
    rw [setProp_append acc k _ hk,
      ihm (by simp) hs2 g rest _ (by simp only [jsonSize.sizeFields]; omega) hnd2]
    simp [jsonForm.formFields]
end

mutual
/-- The bound on parser calls is at most twice the length of the text. -/
theorem jsonSize_le :
    ∀ (v : JsVal), jsonSafe v = true → jsonSize v ≤ 2 * (serialize v).length + 1
  | .undefined, _ => by simp [jsonSize]
  | .null, _ => by simp [jsonSize]
  | .bool _, _ => by simp [jsonSize]
  | .num _, _ => by simp [jsonSize]
  | .str _, _ => by simp [jsonSize]
  | .oid _, _ => by simp [jsonSize]
  | .arr xs, h => by
    have ih := sizeElems_le xs (by simpa [jsonSafe] using h)
    simp only [jsonSize, serialize, List.length_cons, List.length_append, List.length_nil]
    omega
  | .obj fs, h => by
    simp only [jsonSafe, Bool.and_eq_true, decide_eq_true_eq] at h
    have ih := sizeFields_le fs h.1 false
    simp only [jsonSize, serialize, List.length_cons, List.length_append, List.length_nil]
    omega
/-- The bound for the elements of an array. -/
theorem sizeElems_le :
    ∀ (xs : List JsVal), jsonSafe.safeElems xs = true →
      jsonSize.sizeElems xs ≤ 2 * (serialize.serializeElems xs).length + 2
  | [], _ => by simp [jsonSize.sizeElems]
  | [x], h => by
    simp only [jsonSafe.safeElems, Bool.and_eq_true, and_true] at h
    have ih := jsonSize_le x h
    simp only [jsonSize.sizeElems, serialize.serializeElems]
    omega
  | x :: y :: ys, h => by
    simp only [jsonSafe.safeElems, Bool.and_eq_true] at h
    have ih := jsonSize_le x h.1
    have ihe := sizeElems_le (y :: ys) (by simpa [jsonSafe.safeElems] using h.2)
    rw [serializeElems_two]
    simp only [jsonSize.sizeElems, List.length_cons, List.length_append] at ihe ⊢
    omega
/-- The bound for the members of an object. -/
theorem sizeFields_le :
    ∀ (fs : List (String × JsVal)), jsonSafe.safeFields fs = true → ∀ sep : Bool,
      jsonSize.sizeFields fs ≤ 2 * (serialize.serializeMembers fs sep).length + 2
  | [], _, _ => by simp [jsonSize.sizeFields]
  | (k, v) :: fs, h, sep => by
    simp only [jsonSafe.safeFields, Bool.and_eq_true] at h
    have ih := jsonSize_le v h.1
    have ihm := sizeFields_le fs h.2 true
    rw [serializeMembers_cons k v fs sep (jsonSafe_ne_undefined v h.1)]
    simp only [jsonSize.sizeFields, List.length_cons, List.length_append]
    omega
end

/-- `JSON.parse(JSON.stringify(v))` is the JSON form of `v`, for every safe
value. -/
theorem parseText_serialize (v : JsVal) (h : jsonSafe v = true) :
    JSON.parseText (String.mk (serialize v)) = .ok (jsonForm v) := by
  have hp := parseValue_serialize v h (2 * (serialize v).length + 2) [] 
    (by have := jsonSize_le v h; omega) rfl
  rw [List.append_nil] at hp
  simp only [JSON.parseText, hp]
  rfl

/-! ## Closed forms of the connection functions -/

theorem connectMongo_eq (w : World) :
    connectMongo w =
      if envMissing w.env.MONGODB_URI = true ∨ envMissing w.env.MONGODB_DB_NAME = true then
        mongoFailed w
      else if w.fails .newMongoClient = true then
        mongoFailed (w.emit (.call .newMongoClient (w.env.MONGODB_URI.getD "")))
      else if w.fails .mongoConnect = true then
        mongoFailed (w.withMongoClient.emit (.call .mongoConnect ""))
      else
        (.ok (), { w.withMongoClient.emit (.call .mongoConnect "") with
                   db := some ⟨w.clients, w.env.MONGODB_DB_NAME.getD ""⟩ }) := by
  cases h1 : envMissing w.env.MONGODB_URI <;>
  cases h2 : envMissing w.env.MONGODB_DB_NAME <;>
  cases h3 : w.fails .newMongoClient <;>
  cases h4 : w.fails .mongoConnect <;>
  simp [connectMongo, newMongoClient, libCall, World.emit, setTimeout, h1, h2, h3, h4,
    mongoFailed, World.withMongoClient]

theorem connectRedis_eq (w : World) :
    connectRedis w =
      if envMissing w.env.REDIS_URI = true then
        redisFailed w
      else if w.fails .createClient = true then
        redisFailed (w.emit (.call .createClient (w.env.REDIS_URI.getD "")))
      else if w.fails .redisOn = true then
        redisFailed (w.withRedisClient.emit (.call .redisOn "connect"))
      else if w.fails .redisConnect = true then
        redisFailed (((w.withRedisClient.emit (.call .redisOn "connect")).emit
          (.call .redisOn "error")).emit (.call .redisConnect ""))
      else
        (.ok (), { ((w.withRedisClient.emit (.call .redisOn "connect")).emit
                      (.call .redisOn "error")).emit (.call .redisConnect "") with
                   redisClient := some ⟨w.clients, true⟩ }) := by
  cases h1 : envMissing w.env.REDIS_URI <;>
  cases h2 : w.fails .createClient <;>
  cases h3 : w.fails .redisOn <;>
  cases h4 : w.fails .redisConnect <;>
  by_cases h5 : w.env.NODE_ENV = some "test" <;>
  simp [connectRedis, createClient, libCall, World.emit, setTimeout, h1, h2, h3, h4, h5,
    redisFailed, World.withRedisClient]

theorem connectMongo_up (w : World) (h : w.mongoUp) :
    connectMongo w = (.ok (), w.mongoConnected) := by
  obtain ⟨h1, h2, h3, h4⟩ := h
  rw [connectMongo_eq]
  simp [h1, h2, h3, h4, World.mongoConnected]

theorem connectRedis_up (w : World) (h : w.redisUp) :
    connectRedis w = (.ok (), w.redisConnected) := by
  obtain ⟨h1, h2, h3, h4⟩ := h
  rw [connectRedis_eq]
  simp [h1, h2, h3, h4, World.redisConnected]

/-! ## Frame lemmas -/

theorem storeStep_refl (w : World) : StoreStep w w :=
  ⟨rfl, rfl, rfl, rfl, rfl, rfl, rfl, ⟨[], by simp⟩⟩

theorem storeStep_trans {w w1 w2 : World} (h1 : StoreStep w w1) (h2 : StoreStep w1 w2) :
    StoreStep w w2 := by
  obtain ⟨es1, t1, p1⟩ := h1.trace
  obtain ⟨es2, t2, p2⟩ := h2.trace
  refine ⟨h2.env.trans h1.env, h2.isValid.trans h1.isValid, h2.oidHex.trans h1.oidHex,
    h2.fails.trans h1.fails, h2.oidSupply.trans h1.oidSupply, h2.cache.trans h1.cache,
    h2.redisClient.trans h1.redisClient, ⟨es1 ++ es2, ?_, ?_⟩⟩
  · rw [t2, t1, List.append_assoc]
  · intro e he
    rcases List.mem_append.mp he with h | h
    · exact p1 e h
    · exact p2 e h

theorem cacheStep_refl (w : World) : CacheStep w w :=
  ⟨rfl, rfl, rfl, rfl, rfl, rfl, rfl, rfl, rfl, ⟨[], by simp⟩⟩

theorem cacheStep_trans {w w1 w2 : World} (h1 : CacheStep w w1) (h2 : CacheStep w1 w2) :
    CacheStep w w2 := by
  obtain ⟨es1, t1, p1⟩ := h1.trace
  obtain ⟨es2, t2, p2⟩ := h2.trace
  refine ⟨h2.env.trans h1.env, h2.isValid.trans h1.isValid, h2.oidHex.trans h1.oidHex,
    h2.fails.trans h1.fails, h2.oidSupply.trans h1.oidSupply, h2.store.trans h1.store,
    h2.mongoClient.trans h1.mongoClient, h2.db.trans h1.db, h2.oidUsed.trans h1.oidUsed,
    ⟨es1 ++ es2, ?_, ?_⟩⟩
  · rw [t2, t1, List.append_assoc]
  · intro e he
    rcases List.mem_append.mp he with h | h
    · exact p1 e h
    · exact p2 e h

theorem storeStep_emit (w : World) (e : Event) (h : e.onStoreSide = true) :
    StoreStep w (w.emit e) :=
  ⟨rfl, rfl, rfl, rfl, rfl, rfl, rfl, ⟨[e], rfl, by simpa using h⟩⟩

theorem cacheStep_emit (w : World) (e : Event) (h : e.onStoreSide = false) :
    CacheStep w (w.emit e) :=
  ⟨rfl, rfl, rfl, rfl, rfl, rfl, rfl, rfl, rfl, ⟨[e], rfl, by simpa using h⟩⟩

theorem mongoFailed_storeStep (w : World) : StoreStep w (mongoFailed w).2 := by
  unfold mongoFailed
  split
  · exact storeStep_refl w
  · exact storeStep_emit w _ rfl

theorem redisFailed_cacheStep (w : World) : CacheStep w (redisFailed w).2 := by
  unfold redisFailed
  split
  · exact cacheStep_refl w
  · exact cacheStep_emit w _ rfl

theorem withMongoClient_storeStep (w : World) : StoreStep w w.withMongoClient :=
  ⟨rfl, rfl, rfl, rfl, rfl, rfl, rfl, ⟨[_], rfl, by simp [Event.onStoreSide, Op.isMongo]⟩⟩

theorem withRedisClient_cacheStep (w : World) : CacheStep w w.withRedisClient :=
  ⟨rfl, rfl, rfl, rfl, rfl, rfl, rfl, rfl, rfl,
    ⟨[_], rfl, by simp [Event.onStoreSide, Op.isMongo]⟩⟩

theorem connectMongo_storeStep (w : World) : StoreStep w (connectMongo w).2 := by
  have c1 : StoreStep w (w.withMongoClient.emit (.call .mongoConnect "")) :=
    storeStep_trans (withMongoClient_storeStep w) (storeStep_emit _ (.call .mongoConnect "") rfl)
  rw [connectMongo_eq]
  split
  · exact mongoFailed_storeStep w
  · split
    · exact storeStep_trans (storeStep_emit w (.call .newMongoClient _) rfl)
        (mongoFailed_storeStep _)
    · split
      · exact storeStep_trans c1 (mongoFailed_storeStep _)
      · exact storeStep_trans c1 ⟨rfl, rfl, rfl, rfl, rfl, rfl, rfl, ⟨[], by simp⟩⟩

theorem connectRedis_cacheStep (w : World) : CacheStep w (connectRedis w).2 := by
  have on1 : CacheStep w (w.withRedisClient.emit (.call .redisOn "connect")) :=
    cacheStep_trans (withRedisClient_cacheStep w)
      (cacheStep_emit _ (.call .redisOn "connect") rfl)
  have on3 : CacheStep w (((w.withRedisClient.emit (.call .redisOn "connect")).emit
      (.call .redisOn "error")).emit (.call .redisConnect "")) :=
    cacheStep_trans (cacheStep_trans on1 (cacheStep_emit _ (.call .redisOn "error") rfl))
      (cacheStep_emit _ (.call .redisConnect "") rfl)
  rw [connectRedis_eq]
  split
  · exact redisFailed_cacheStep w
  · split
    · exact cacheStep_trans (cacheStep_emit w (.call .createClient _) rfl)
        (redisFailed_cacheStep _)
    · split
      · exact cacheStep_trans on1 (redisFailed_cacheStep _)
      · split
        · exact cacheStep_trans on3 (redisFailed_cacheStep _)
        · exact cacheStep_trans on3
            ⟨rfl, rfl, rfl, rfl, rfl, rfl, rfl, rfl, rfl, ⟨[], by simp⟩⟩

/-- The cache entries are untouched by `connectRedis`. -/
theorem connectRedis_cache (w : World) : (connectRedis w).2.cache = w.cache := by
  rw [connectRedis_eq]
  unfold redisFailed
  repeat' split
  all_goals rfl

theorem connectMongo_store (w : World) : (connectMongo w).2.store = w.store := by
  rw [connectMongo_eq]
  unfold mongoFailed
  repeat' split
  all_goals rfl

theorem redisUp_congr {w w1 : World} (henv : w1.env = w.env) (hfails : w1.fails = w.fails)
    (h : w.redisUp) : w1.redisUp := by
  unfold World.redisUp at *
  rw [henv, hfails]
  exact h

theorem mongoUp_congr {w w1 : World} (henv : w1.env = w.env) (hfails : w1.fails = w.fails)
    (h : w.mongoUp) : w1.mongoUp := by
  unfold World.mongoUp at *
  rw [henv, hfails]
  exact h

theorem matchesId_congr (w w1 : World) (h : w1.oidHex = w.oidHex) (id : String) :
    matchesId w1 id = matchesId w id := by
  funext doc
  simp [matchesId, h]

/-! ## The services -/

theorem redisCall_cacheStep (client : Option RedisClient) (op : Op) (key : String)
    (w : World) (hop : op.isMongo = false) :
    CacheStep w (redisCall client op key w).2 ∧ (redisCall client op key w).2.cache = w.cache := by
  have he : CacheStep w (w.emit (.call op key)) := cacheStep_emit w (.call op key) hop
  cases client with
  | none => exact ⟨cacheStep_refl w, rfl⟩
  | some c =>
    cases hc : c.isOpen <;> cases hf : w.fails op <;>
    simp [redisCall, libCall, hc, hf] <;> exact ⟨he, rfl⟩

theorem dbCall_storeStep (db : Option Db) (op : Op) (collection : String) (w : World)
    (hop : op.isMongo = true) :
    StoreStep w (dbCall db op collection w).2 ∧ (dbCall db op collection w).2.store = w.store := by
  have he : StoreStep w (w.emit (.call op collection)) := storeStep_emit w (.call op collection) hop
  cases db with
  | none => exact ⟨storeStep_refl w, rfl⟩
  | some c =>
    cases hf : w.fails op <;> simp [dbCall, libCall, hf] <;> exact ⟨he, rfl⟩

/-- What `getCachedData` returns, in terms of the cache it was given. -/
theorem getCachedData_spec (key : String) (w : World) :
    CacheStep w (getCachedData key w).2
      ∧ (getCachedData key w).2.cache = w.cache
      ∧ ∀ v, (getCachedData key w).1 = .ok v →
          (w.cache key = none ∧ v = .null)
            ∨ ∃ e, w.cache key = some e ∧
                (((JsVal.str e.value).truthy = false ∧ v = .null)
                  ∨ ((JsVal.str e.value).truthy = true ∧ JSON.parseText e.value = .ok v)) := by
  have hR := connectRedis_cacheStep w
  have hRc := connectRedis_cache w
  simp only [getCachedData, run_tryCatch, run_bind, getRedisClient]
  rcases hcr : connectRedis w with ⟨e | u, w1⟩
  · rw [hcr] at hR hRc
    simp
    exact ⟨hR, hRc⟩
  · rw [hcr] at hR hRc
    simp only at hR hRc
    have hC := redisCall_cacheStep w1.redisClient .redisGet key w1 rfl
    dsimp only
    rcases hcall : redisCall w1.redisClient .redisGet key w1 with ⟨e | u, w2⟩
    · rw [hcall] at hC
      simp
      exact ⟨cacheStep_trans hR hC.1, hC.2.trans hRc⟩
    · rw [hcall] at hC
      simp only at hC
      dsimp only
      have hcache : w2.cache = w.cache := hC.2.trans hRc
      simp only [run_get, hcache]
      cases hk : w.cache key with
      | none => simp; exact ⟨cacheStep_trans hR hC.1, hcache⟩
      | some entry =>
        simp only
        cases ht : (JsVal.str entry.value).truthy
        · simp; exact ⟨cacheStep_trans hR hC.1, hcache, Or.inl ht⟩
        · cases hp : JSON.parseText entry.value with
          | error e => simp [Js.ofExcept, hp]; exact ⟨cacheStep_trans hR hC.1, hcache⟩
          | ok v =>
            simp [Js.ofExcept, hp, Js.pure]
            exact ⟨cacheStep_trans hR hC.1, hcache, Or.inr ht⟩

theorem getCachedData_miss_up (key : String) (w : World) (hup : w.redisUp)
    (hget : w.fails .redisGet = false) (hmiss : w.cache key = none) :
    (getCachedData key w).1 = .ok .null := by
  simp [getCachedData, connectRedis_up w hup, getRedisClient, World.redisConnected, redisCall,
    libCall, World.emit, World.withRedisClient, hget, hmiss]

/-- What `cacheData` does to the cache. -/
theorem cacheData_spec (key : String) (data : JsVal) (ttl : Nat) (w : World) :
    CacheStep w (cacheData key data ttl w).2
      ∧ (∀ e, (cacheData key data ttl w).1 = .error e → (cacheData key data ttl w).2.cache = w.cache)
      ∧ ((cacheData key data ttl w).1 = .ok () →
          ∃ text, JSON.stringify data = some text
            ∧ (cacheData key data ttl w).2.cache = (w.setCache key (some ⟨text, ttl⟩)).cache) := by
  have hR := connectRedis_cacheStep w
  have hRc := connectRedis_cache w
  simp only [cacheData, run_tryCatch, run_bind, getRedisClient]
  rcases hcr : connectRedis w with ⟨e | u, w1⟩
  · rw [hcr] at hR hRc
    simp
    exact ⟨hR, hRc⟩
  · rw [hcr] at hR hRc
    simp only at hR hRc
    have hC := redisCall_cacheStep w1.redisClient .redisSet key w1 rfl
    dsimp only
    rcases hcall : redisCall w1.redisClient .redisSet key w1 with ⟨e | u, w2⟩
    · rw [hcall] at hC
      simp
      exact ⟨cacheStep_trans hR hC.1, hC.2.trans hRc⟩
    · rw [hcall] at hC
      simp only at hC
      dsimp only
      have hstep : CacheStep w w2 := cacheStep_trans hR hC.1
      have hcache : w2.cache = w.cache := hC.2.trans hRc
      cases hs : JSON.stringify data with
      | none => simp; exact ⟨hstep, hcache⟩
      | some text =>
        by_cases ht : ttl = 0
        · simp [ht]; exact ⟨hstep, hcache⟩
        · simp only [ht, if_false, run_modify, run_throw]
          refine ⟨?_, ?_, ?_⟩
          · exact ⟨hstep.env, hstep.isValid, hstep.oidHex, hstep.fails, hstep.oidSupply,
              hstep.store, hstep.mongoClient, hstep.db, hstep.oidUsed, hstep.trace⟩
          · intro e he
            cases he
          · intro _
            refine ⟨text, rfl, ?_⟩
            simp [World.setCache, hcache]

theorem cacheData_up (key : String) (r : Record) (ttl : Nat) (w : World) (hup : w.redisUp)
    (hset : w.fails .redisSet = false) (httl : ttl ≠ 0) :
    (cacheData key (.obj r) ttl w).1 = .ok ()
      ∧ (cacheData key (.obj r) ttl w).2.cache key = some (entryFor r ttl) := by
  simp [cacheData, connectRedis_up w hup, getRedisClient, World.redisConnected, redisCall,
    libCall, World.emit, World.withRedisClient, hset, JSON.stringify, httl, World.setCache,
    entryFor]

theorem deleteCache_up (key : String) (w : World) (hup : w.redisUp)
    (hdel : w.fails .redisDel = false) :
    (∃ b, (deleteCache key w).1 = .ok b)
      ∧ (deleteCache key w).2.cache key = none
      ∧ Event.call .redisDel key ∈ (deleteCache key w).2.trace := by
  simp [deleteCache, connectRedis_up w hup, getRedisClient, World.redisConnected, redisCall,
    libCall, World.emit, World.withRedisClient, hdel, World.setCache]

theorem findOneById_invalid (w : World) (collection id : String)
    (h : w.isValid id = false) :
    findOneById collection id w = (.error (mkError "Invalid ObjectId"), w) := by
  simp [findOneById, h]

theorem updateOneById_invalid (w : World) (collection id : String) (updates : Record)
    (h : w.isValid id = false) :
    updateOneById collection id updates w = (.error (mkError "Invalid ObjectId"), w) := by
  simp [updateOneById, h]

theorem deleteOneById_invalid (w : World) (collection id : String)
    (h : w.isValid id = false) :
    deleteOneById collection id w = (.error (mkError "Invalid ObjectId"), w) := by
  simp [deleteOneById, h]

/-- What `findOneById` returns for a well-formed identifier. -/
theorem findOneById_spec (collection id : String) (w : World) (hid : w.isValid id = true) :
    StoreStep w (findOneById collection id w).2
      ∧ (findOneById collection id w).2.store = w.store
      ∧ ∀ d, (findOneById collection id w).1 = .ok d →
          d = (w.store collection).find? (matchesId w id) := by
  have hM := connectMongo_storeStep w
  have hMs := connectMongo_store w
  simp only [findOneById, run_bind, run_get, hid, Bool.not_true, Bool.false_eq_true, if_false,
    getDb]
  rcases hcm : connectMongo w with ⟨e | u, w1⟩
  · rw [hcm] at hM hMs
    simp
    exact ⟨hM, hMs⟩
  · rw [hcm] at hM hMs
    simp only at hM hMs
    have hC := dbCall_storeStep w1.db .findOne collection w1 rfl
    dsimp only
    rcases hcall : dbCall w1.db .findOne collection w1 with ⟨e | u, w2⟩
    · rw [hcall] at hC
      simp
      exact ⟨storeStep_trans hM hC.1, hC.2.trans hMs⟩
    · rw [hcall] at hC
      simp only at hC
      have hstep : StoreStep w w2 := storeStep_trans hM hC.1
      have hstore : w2.store = w.store := hC.2.trans hMs
      simp only [run_pure]
      refine ⟨hstep, hstore, ?_⟩
      intro d hd
      cases hd
      rw [hstore, matchesId_congr w w2 hstep.oidHex]

theorem findOneById_up (collection id : String) (w : World) (hid : w.isValid id = true)
    (hup : w.mongoUp) (hfind : w.fails .findOne = false) :
    (findOneById collection id w).1 = .ok ((w.store collection).find? (matchesId w id)) := by
  have hm : matchesId (w.mongoConnected.emit (.call .findOne collection)) id
      = matchesId w id := matchesId_congr _ _ rfl id
  simp only [findOneById, run_bind, run_get, hid, Bool.not_true, Bool.false_eq_true, if_false,
    getDb, connectMongo_up w hup]
  simp [World.mongoConnected, dbCall, libCall, hfind, World.emit, World.withMongoClient]
  exact congrArg (fun p => List.find? p (w.store collection)) hm

theorem updateOneById_storeStep (collection id : String) (updates : Record) (w : World) :
    StoreStep w (updateOneById collection id updates w).2 := by
  have hM := connectMongo_storeStep w
  cases hid : w.isValid id
  · simp [updateOneById, hid]
    exact storeStep_refl w
  · simp only [updateOneById, run_bind, run_get, getDb, hid, Bool.not_true, Bool.false_eq_true,
      if_false]
    rcases hcm : connectMongo w with ⟨e | u, w1⟩
    · rw [hcm] at hM
      exact hM
    · rw [hcm] at hM
      simp only at hM
      have hC := dbCall_storeStep w1.db .findOneAndUpdate collection w1 rfl
      dsimp only
      rcases hcall : dbCall w1.db .findOneAndUpdate collection w1 with ⟨e | u, w2⟩
      · rw [hcall] at hC
        exact storeStep_trans hM hC.1
      · rw [hcall] at hC
        simp only at hC
        have hstep : StoreStep w w2 := storeStep_trans hM hC.1
        dsimp only
        cases hf : (w2.store collection).find? (matchesId w2 id) with
        | none => exact hstep
        | some doc =>
          simp only [run_modify, run_pure]
          exact ⟨hstep.env, hstep.isValid, hstep.oidHex, hstep.fails, hstep.oidSupply,
            hstep.cache, hstep.redisClient, hstep.trace⟩

theorem deleteOneById_storeStep (collection id : String) (w : World) :
    StoreStep w (deleteOneById collection id w).2 := by
  have hM := connectMongo_storeStep w
  cases hid : w.isValid id
  · simp [deleteOneById, hid]
    exact storeStep_refl w
  · simp only [deleteOneById, run_bind, run_get, getDb, hid, Bool.not_true, Bool.false_eq_true,
      if_false]
    rcases hcm : connectMongo w with ⟨e | u, w1⟩
    · rw [hcm] at hM
      exact hM
    · rw [hcm] at hM
      simp only at hM
      have hC := dbCall_storeStep w1.db .deleteOne collection w1 rfl
      dsimp only
      rcases hcall : dbCall w1.db .deleteOne collection w1 with ⟨e | u, w2⟩
      · rw [hcall] at hC
        exact storeStep_trans hM hC.1
      · rw [hcall] at hC
        simp only at hC
        have hstep : StoreStep w w2 := storeStep_trans hM hC.1
        simp only [run_modify, run_pure]
        exact ⟨hstep.env, hstep.isValid, hstep.oidHex, hstep.fails, hstep.oidSupply,
          hstep.cache, hstep.redisClient, hstep.trace⟩

/-! ## The update path -/

theorem getProp_setProp_same (r : Record) (k : String) (v : JsVal) :
    (r.setProp k v).getProp k = v := by
  induction r with
  | nil => simp [Record.setProp, Record.getProp]
  | cons kv rest ih =>
    obtain ⟨k1, v1⟩ := kv
    by_cases h : k1 = k
    · simp [Record.setProp, Record.getProp, h]
    · simp [Record.setProp, Record.getProp, h, ih]

theorem getProp_setProp_ne (r : Record) (k k2 : String) (v : JsVal) (h : k ≠ k2) :
    (r.setProp k v).getProp k2 = r.getProp k2 := by
  induction r with
  | nil => simp [Record.setProp, Record.getProp, h]
  | cons kv rest ih =>
    obtain ⟨k1, v1⟩ := kv
    by_cases h1 : k1 = k
    · subst h1
      simp [Record.setProp, Record.getProp, h]
    · by_cases h2 : k1 = k2
      · subst h2
        simp [Record.setProp, Record.getProp, h1]
      · simp [Record.setProp, Record.getProp, h1, h2, ih]

theorem toBson_cons (k : String) (v : JsVal) (rest : Record) :
    toBson ((k, v) :: rest)
      = (k, match v with
          | .undefined => .null
          | x => x) :: toBson rest := by
  cases v <;> rfl

theorem find_replaceFirst (p : Record → Bool) (d1 : Record) (h1 : p d1 = true) :
    ∀ (l : List Record) (d : Record), l.find? p = some d →
      (replaceFirst p d1 l).find? p = some d1 := by
  intro l
  induction l with
  | nil => intro d h; simp at h
  | cons x xs ih =>
    intro d h
    by_cases hx : p x = true
    · simp [replaceFirst, hx, h1]
    · simp only [Bool.not_eq_true] at hx
      simp only [List.find?, hx] at h
      simp [replaceFirst, hx, List.find?, ih d h]

/-- What `updateOneById` returns and stores when the document store is
reachable: for a stored document, the property `value` of the updated
document, which replaces the stored one; when no document matches, the
`TypeError` of the property read on `null`, and the store is as before. -/
theorem updateOneById_up (collection id : String) (updates : Record) (w : World)
    (hid : w.isValid id = true) (hup : w.mongoUp) (hfu : w.fails .findOneAndUpdate = false) :
    (∀ doc, (w.store collection).find? (matchesId w id) = some doc →
        (updateOneById collection id updates w).1
            = .ok ((applySet doc (toBson updates)).getProp "value")
          ∧ (updateOneById collection id updates w).2.store collection
            = replaceFirst (matchesId w id) (applySet doc (toBson updates))
                (w.store collection))
      ∧ ((w.store collection).find? (matchesId w id) = none →
          (updateOneById collection id updates w).1 = .error nullError
            ∧ (updateOneById collection id updates w).2.store = w.store) := by
  have hm : matchesId (w.mongoConnected.emit (.call .findOneAndUpdate collection)) id
      = matchesId w id := matchesId_congr _ _ rfl id
  have hs : (w.mongoConnected.emit (.call .findOneAndUpdate collection)).store = w.store := rfl
  simp only [updateOneById, run_bind, run_get, hid, Bool.not_true, Bool.false_eq_true, if_false,
    getDb, connectMongo_up w hup]
  have hcall : dbCall w.mongoConnected.db .findOneAndUpdate collection w.mongoConnected
      = (.ok (), w.mongoConnected.emit (.call .findOneAndUpdate collection)) := by
    simp [World.mongoConnected, dbCall, libCall, hfu, World.emit, World.withMongoClient]
  simp only [hcall, hm, hs]
  cases hf : (w.store collection).find? (matchesId w id) with
  | none => simp [hs]
  | some doc =>
    simp only [run_bind, run_modify, run_pure]
    refine ⟨?_, by intro h; cases h⟩
    intro d hd
    cases hd
    refine ⟨rfl, ?_⟩
    rw [hm, hs]
    simp [World.setCollection]

theorem applySet_course (doc : Record) (a b : JsVal) :
    applySet doc [("name", a), ("duration", b)]
      = (doc.setProp "name" a).setProp "duration" b := rfl

theorem applySet_student (doc : Record) (a b c : JsVal) :
    applySet doc [("name", a), ("age", b), ("courseIds", c)]
      = ((doc.setProp "name" a).setProp "age" b).setProp "courseIds" c := rfl

/-- The record stored by an update of a resource: every field of the
resource whose value in the body is `undefined` is stored as `null`; the
identifier and a property named `value` are kept. -/
theorem applySet_fields (res : Resource) (doc body : Record) :
    (∀ k, k ∈ (res.fields body).map Prod.fst → body.getProp k = .undefined →
        (applySet doc (toBson (res.fields body))).getProp k = .null)
      ∧ (applySet doc (toBson (res.fields body))).getProp "_id" = doc.getProp "_id"
      ∧ (applySet doc (toBson (res.fields body))).getProp "value" = doc.getProp "value" := by
  cases res
  · simp only [Resource.fields, toBson_cons, toBson, applySet_course, List.map, List.mem_cons,
      List.mem_singleton, List.not_mem_nil, or_false]
    refine ⟨?_, ?_, ?_⟩
    · rintro k (rfl | rfl) hk
      · rw [getProp_setProp_ne _ _ _ _ (by decide), getProp_setProp_same, hk]
      · rw [getProp_setProp_same, hk]
    · rw [getProp_setProp_ne _ _ _ _ (by decide), getProp_setProp_ne _ _ _ _ (by decide)]
    · rw [getProp_setProp_ne _ _ _ _ (by decide), getProp_setProp_ne _ _ _ _ (by decide)]
  · simp only [Resource.fields, toBson_cons, toBson, applySet_student, List.map, List.mem_cons,
      List.mem_singleton, List.not_mem_nil, or_false]
    refine ⟨?_, ?_, ?_⟩
    · rintro k (rfl | rfl | rfl) hk
      · rw [getProp_setProp_ne _ _ _ _ (by decide), getProp_setProp_ne _ _ _ _ (by decide),
          getProp_setProp_same, hk]
      · rw [getProp_setProp_ne _ _ _ _ (by decide), getProp_setProp_same, hk]
      · rw [getProp_setProp_same, hk]
    · rw [getProp_setProp_ne _ _ _ _ (by decide), getProp_setProp_ne _ _ _ _ (by decide),
        getProp_setProp_ne _ _ _ _ (by decide)]
    · rw [getProp_setProp_ne _ _ _ _ (by decide), getProp_setProp_ne _ _ _ _ (by decide),
        getProp_setProp_ne _ _ _ _ (by decide)]

theorem find_matchesId (w : World) (id : String) (l : List Record) (doc : Record)
    (h : l.find? (matchesId w id) = some doc) : matchesId w id doc = true := by
  have := List.find?_some h
  exact this

/-- The update handlers in terms of what `updateOneById` did: a thrown error
is answered with 500 and a falsy result with 404, in both cases without any
further effect. -/
theorem update_handler_falsy (res : Resource) (id : String) (body : Record) (w w1 : World) :
    (∀ e, updateOneById res.collection id (res.fields body) w = (.error e, w1) →
        res.update id body w = (.ok ⟨500, internalError⟩, w1))
      ∧ (∀ v, updateOneById res.collection id (res.fields body) w = (.ok v, w1) →
          v.truthy = false → res.update id body w = (.ok ⟨404, res.notFound⟩, w1)) := by
  cases res <;>
  · simp only [Resource.collection, Resource.notFound, Resource.fields]
    simp only [Resource.update, updateCourse, updateStudent, run_tryCatch, run_bind]
    constructor
    · intro e hu
      simp [hu, internalError]
    · intro v hu hv
      simp [hu, hv]

/-- The handlers leave the document store as `updateOneById` left it. -/
theorem update_handler_store (res : Resource) (id : String) (body : Record) (w : World) :
    (res.update id body w).2.store
      = (updateOneById res.collection id (res.fields body) w).2.store := by
  have hCD := fun u w1 => (cacheData_spec (res.key id) u 3600 w1).1.store
  cases res <;>
  · simp only [Resource.key, Resource.collection, Resource.fields] at *
    simp only [Resource.update, updateCourse, updateStudent, run_tryCatch, run_bind]
    rcases hu : updateOneById _ id _ w with ⟨e | u, w1⟩
    · rfl
    · cases ht : u.truthy
      · simp [ht]
      · have h := hCD u w1
        simp only [ht, Bool.not_true, Bool.false_eq_true, if_false, run_bind]
        rcases hc : cacheData _ u 3600 w1 with ⟨e | x, w2⟩
        · rw [hc] at h
          exact h
        · rw [hc] at h
          exact h

/-! ## C1: read-by-id on a cache hit -/

/-- C1 (what the code does): on a cache hit the handler does not answer 200.
Whenever the cache holds under `<resource>:<id>` the entry that `cacheData`
wrote for a record, `getCourseById` / `getStudentById` answers 500 with the
generic error body: `getCachedData` has already parsed the entry and the
handler passes the resulting object to `JSON.parse` a second time, which
throws.  No document-store call is made and the cache is left as it was. -/
theorem read_by_id_cache_hit_responds_500 (res : Resource) (id : String) (r : Record)
    (ttl : Nat) (w : World) (hhit : w.cache (res.key id) = some (entryFor r ttl)) :
    (res.getById id w).1 = .ok ⟨500, internalError⟩
      ∧ CacheStep w (res.getById id w).2
      ∧ (res.getById id w).2.cache = w.cache := by
  obtain ⟨hstep, hcache, hval⟩ := getCachedData_spec (res.key id) w
  cases res <;>
  · simp only [Resource.key] at hhit hstep hcache hval
    simp only [Resource.getById, getCourseById, getStudentById, run_tryCatch, run_bind]
    rcases hg : getCachedData _ w with ⟨e | v, w1⟩
    · rw [hg] at hstep hcache
      exact ⟨rfl, hstep, hcache⟩
    · rw [hg] at hstep hcache hval
      rcases hval v rfl with ⟨hnone, _⟩ | ⟨entry, hsome, hcase⟩
      · rw [hnone] at hhit
        cases hhit
      · rw [hsome] at hhit
        cases hhit
        rcases hcase with ⟨hfalse, _⟩ | ⟨_, hparse⟩
        · rw [entryFor, serialize_obj_truthy] at hfalse
          cases hfalse
        · obtain ⟨gs, rfl⟩ := parseText_serialize_obj r v hparse
          simp only [JsVal.truthy, if_true, run_bind, parse_obj_throws, Js.ofExcept, run_throw]
          exact ⟨rfl, hstep, hcache⟩

/-- Instance at the first read after a create: `createCourse` on the fresh
process answers 201 and fills the cache; `getCachedData` then returns the
parsed entry (an object whose `_id` is now a string), `JSON.parse` of that
object throws, and `getCourseById` answers 500. -/
theorem read_by_id_cache_hit_witness :
    (createCourse courseBody freshWorld).1 = .ok ⟨201, .obj createdCourse⟩
      ∧ createdWorld.cache (Resource.course.key sampleId) = some (entryFor createdCourse 3600)
      ∧ (getCachedData (Resource.course.key sampleId) createdWorld).1
          = .ok (.obj [("name", .str "Algorithms"), ("duration", .num 40),
              ("_id", .str sampleId)])
      ∧ JSON.parse (.obj [("name", .str "Algorithms"), ("duration", .num 40),
              ("_id", .str sampleId)]) = .error jsonSyntaxError
      ∧ (getCourseById sampleId createdWorld).1 = .ok ⟨500, internalError⟩ :=
  ⟨rfl, rfl, rfl, rfl, (read_by_id_cache_hit_responds_500 .course sampleId createdCourse 3600
    createdWorld rfl).1⟩

/-! ## C2: create with a failing cache write -/

/-- C2, as stated, fails: with a valid body, a successful insert and a
key-value store that refuses `SET`, `createCourse` answers 500, not 201. -/
theorem create_with_failing_cache_put_responds_500 :
    Resource.course.validBody courseBody = true
      ∧ (insertOne "courses" (Resource.course.fields courseBody) cacheDownWorld).1
          = .ok createdCourse
      ∧ (cacheData ("course:" ++ sampleId) (.obj createdCourse) 3600
            (insertOne "courses" (Resource.course.fields courseBody) cacheDownWorld).2).1
          = .error (libError .redisSet)
      ∧ (createCourse courseBody cacheDownWorld).1 = .ok ⟨500, internalError⟩
      ∧ (createCourse courseBody cacheDownWorld).2.store "courses"
          = [[("name", .str "Algorithms"), ("duration", .num 40), ("_id", .oid sampleId)]] := by
  refine ⟨rfl, rfl, rfl, rfl, rfl⟩

/-- C2 (amended): the cache write is inside the handler's `try` block and
`cacheData` rethrows.  For every valid request body, if the insert succeeds
and the subsequent `cacheData` fails, `createCourse` / `createStudent` answers
500 with the generic error body; the inserted record stays in the document
store and the cache is left as it was. -/
theorem create_surfaces_cache_failure (res : Resource) (body rec : Record) (e : JsError)
    (w w1 w2 : World) (hbody : res.validBody body = true)
    (hins : insertOne res.collection (res.fields body) w = (.ok rec, w1))
    (hput : cacheData (res.key (rec.getProp "_id").toJsString) (.obj rec) 3600 w1
      = (.error e, w2)) :
    res.create body w = (.ok ⟨500, internalError⟩, w2)
      ∧ w2.store = w1.store ∧ w2.cache = w1.cache := by
  obtain ⟨hstep, herr, -⟩ :=
    cacheData_spec (res.key (rec.getProp "_id").toJsString) (.obj rec) 3600 w1
  rw [hput] at hstep herr
  refine ⟨?_, hstep.store, herr e rfl⟩
  cases res
  · simp only [Resource.validBody, Bool.and_eq_true] at hbody
    simp only [Resource.key, Resource.collection, Resource.fields] at hins hput
    simp [Resource.create, createCourse, hbody.1, hbody.2, hins, hput, internalError]
  · simp only [Resource.validBody, Bool.and_eq_true] at hbody
    simp only [Resource.key, Resource.collection, Resource.fields] at hins hput
    simp [Resource.create, createStudent, hbody.1.1, hbody.1.2, hbody.2, hins, hput,
      internalError]

/-- Instance for `POST /courses` when the key-value store refuses `SET`. -/
theorem create_surfaces_cache_failure_witness :
    Resource.course.validBody courseBody = true
      ∧ createCourse courseBody cacheDownWorld
          = (.ok ⟨500, internalError⟩, (createCourse courseBody cacheDownWorld).2) :=
  ⟨rfl,
    (create_surfaces_cache_failure .course courseBody createdCourse (libError .redisSet)
      cacheDownWorld _ _ rfl rfl rfl).1⟩

/-! ## C3: delete-by-id and the cache -/

/-- C3, as stated, fails: with an empty store and a cache entry left under
`course:<id>`, `deleteCourse` answers 404, issues no `DEL` and the entry is
still in the cache afterwards. -/
theorem delete_not_found_skips_cache_cleanup :
    staleCacheWorld.isValid sampleId = true
      ∧ (deleteCourse sampleId staleCacheWorld).1 = .ok ⟨404, errorBody "Course not found"⟩
      ∧ (deleteCourse sampleId staleCacheWorld).2.cache ("course:" ++ sampleId)
          = some (entryFor sampleCourse 3600)
      ∧ Event.call .redisDel ("course:" ++ sampleId)
          ∉ (deleteCourse sampleId staleCacheWorld).2.trace := by
  refine ⟨by decide, rfl, rfl, by decide⟩

/-- C3 (amended): the cache delete follows the store delete and is issued
only when the store removed a record.  When `deleteOneById` reports that
nothing was deleted the handler answers 404 and stops: no cache operation is
issued and the cache is unchanged.  When it reports a deletion and the
key-value store is reachable, a `DEL` on `<resource>:<id>` is issued, the key
is absent afterwards and the handler answers 200. -/
theorem delete_cleans_cache_only_after_store_delete (res : Resource) (id : String)
    (w w1 : World) :
    (deleteOneById res.collection id w = (.ok false, w1) →
        res.delete id w = (.ok ⟨404, res.notFound⟩, w1) ∧ StoreStep w w1)
      ∧ (deleteOneById res.collection id w = (.ok true, w1) →
        w.redisUp → w.fails .redisDel = false →
        (res.delete id w).1 = .ok ⟨200, res.deleted⟩
          ∧ (res.delete id w).2.cache (res.key id) = none
          ∧ Event.call .redisDel (res.key id) ∈ (res.delete id w).2.trace) := by
  have hD := deleteOneById_storeStep res.collection id w
  have hDC := fun w2 h1 h2 => deleteCache_up (res.key id) w2 h1 h2
  cases res <;>
  · simp only [Resource.key, Resource.collection, Resource.notFound, Resource.deleted] at *
    simp only [Resource.delete, deleteCourse, deleteStudent, run_tryCatch, run_bind]
    constructor
    · intro hd
      rw [hd] at hD
      simp only [hd]
      exact ⟨rfl, hD⟩
    · intro hd hredis hdel
      rw [hd] at hD
      simp only at hD
      have hredis1 : w1.redisUp := redisUp_congr hD.env hD.fails hredis
      have hdel1 : w1.fails .redisDel = false := by rw [hD.fails]; exact hdel
      obtain ⟨⟨b, hok⟩, hnone, hmem⟩ := hDC w1 hredis1 hdel1
      simp only [hd, Bool.not_true, Bool.false_eq_true, if_false, run_bind]
      rcases hc : deleteCache _ w1 with ⟨rcd, w2⟩
      rw [hc] at hok hnone hmem
      simp only at hok hnone hmem
      subst hok
      exact ⟨rfl, hnone, hmem⟩

/-- Instances for `DELETE /courses/:id`: with an empty store (404), and after
a create (200, key removed). -/
theorem delete_cleans_cache_witness :
    deleteOneById "courses" sampleId staleCacheWorld
        = (.ok false, (deleteOneById "courses" sampleId staleCacheWorld).2)
      ∧ (deleteCourse sampleId staleCacheWorld).1 = .ok ⟨404, errorBody "Course not found"⟩
      ∧ deleteOneById "courses" sampleId createdWorld
        = (.ok true, (deleteOneById "courses" sampleId createdWorld).2)
      ∧ (deleteCourse sampleId createdWorld).1
        = .ok ⟨200, messageBody "Course deleted successfully"⟩
      ∧ (deleteCourse sampleId createdWorld).2.cache ("course:" ++ sampleId) = none :=
  ⟨rfl,
    congrArg Prod.fst
      ((delete_cleans_cache_only_after_store_delete .course sampleId staleCacheWorld _).1
        rfl).1,
    rfl,
    ((delete_cleans_cache_only_after_store_delete .course sampleId createdWorld _).2 rfl
      ⟨rfl, rfl, rfl, rfl⟩ rfl).1,
    ((delete_cleans_cache_only_after_store_delete .course sampleId createdWorld _).2 rfl
      ⟨rfl, rfl, rfl, rfl⟩ rfl).2.1⟩

/-! ## C4: update-by-id -/

/-- C4 (what the code does): update-by-id is not write-through.
`updateOneById` returns `result.value`, and `findOneAndUpdate` resolves with
the updated document itself, so the service returns the property `value` of
that document where its own documentation promises the document.  For every
stored record with a well-formed `id` and no truthy property `value` (every
course and student record), when the document store is reachable:
`updateOneById` returns that falsy property (`undefined` when the record has
no such field), the store holds the updated record, and `updateCourse` /
`updateStudent` answers 404 without any cache operation, so the cache keeps
what it held before the update.  When no record has the `id`, the property
read on `null` throws and the handler answers 500; store and cache are
unchanged. -/
theorem update_of_stored_record_responds_404 (res : Resource) (id : String) (body : Record)
    (w : World) (hid : w.isValid id = true) (hup : w.mongoUp)
    (hfu : w.fails .findOneAndUpdate = false) :
    (∀ doc, (w.store res.collection).find? (matchesId w id) = some doc →
        (doc.getProp "value").truthy = false →
        (updateOneById res.collection id (res.fields body) w).1 = .ok (doc.getProp "value")
          ∧ (res.update id body w).1 = .ok ⟨404, res.notFound⟩
          ∧ ((res.update id body w).2.store res.collection).find? (matchesId w id)
              = some (applySet doc (toBson (res.fields body)))
          ∧ (res.update id body w).2.cache = w.cache
          ∧ StoreStep w (res.update id body w).2)
      ∧ ((w.store res.collection).find? (matchesId w id) = none →
          (res.update id body w).1 = .ok ⟨500, internalError⟩
            ∧ (res.update id body w).2.store = w.store
            ∧ (res.update id body w).2.cache = w.cache
            ∧ StoreStep w (res.update id body w).2) := by
  obtain ⟨hfound, hnone⟩ := updateOneById_up res.collection id (res.fields body) w hid hup hfu
  have hU := updateOneById_storeStep res.collection id (res.fields body) w
  have hS := update_handler_store res id body w
  rcases hu : updateOneById res.collection id (res.fields body) w with ⟨r, w1⟩
  rw [hu] at hfound hnone hU hS
  simp only at hfound hnone hU hS
  obtain ⟨h500, h404⟩ := update_handler_falsy res id body w w1
  constructor
  · intro doc hdoc hval
    obtain ⟨hres, hstore⟩ := hfound doc hdoc
    obtain ⟨-, hkeep, hvalue⟩ := applySet_fields res doc body
    rw [hvalue] at hres
    subst hres
    have hresp := h404 _ hu hval
    rw [hresp]
    refine ⟨rfl, rfl, ?_, hU.cache, hU⟩
    show (w1.store res.collection).find? (matchesId w id) = _
    rw [hstore]
    apply find_replaceFirst _ _ _ _ doc hdoc
    have hmatch := find_matchesId w id _ doc hdoc
    simp only [matchesId, hkeep] at hmatch ⊢
    exact hmatch
  · intro hno
    obtain ⟨hres, hstore⟩ := hnone hno
    subst hres
    have hresp := h500 _ hu
    rw [hresp]
    exact ⟨rfl, hstore, hU.cache, hU⟩

/-- Instance for `PUT /courses/:id` with a full body on the stored course,
both stores reachable: the store takes the new duration, the answer is 404
and nothing is cached.  The same request on the empty store is answered with
500. -/
theorem update_of_stored_record_witness :
    (storedWorld.store "courses").find? (matchesId storedWorld sampleId) = some sampleCourse
      ∧ (updateOneById "courses" sampleId (Resource.course.fields updateBody) storedWorld).1
          = .ok .undefined
      ∧ (updateCourse sampleId updateBody storedWorld).1
          = .ok ⟨404, errorBody "Course not found"⟩
      ∧ (updateCourse sampleId updateBody storedWorld).2.store "courses" = [updatedCourse]
      ∧ (updateCourse sampleId updateBody storedWorld).2.cache ("course:" ++ sampleId) = none
      ∧ (updateCourse sampleId updateBody freshWorld).1 = .ok ⟨500, internalError⟩ :=
  ⟨rfl,
    ((update_of_stored_record_responds_404 .course sampleId updateBody storedWorld (by decide)
      ⟨rfl, rfl, rfl, rfl⟩ rfl).1 sampleCourse rfl rfl).1,
    ((update_of_stored_record_responds_404 .course sampleId updateBody storedWorld (by decide)
      ⟨rfl, rfl, rfl, rfl⟩ rfl).1 sampleCourse rfl rfl).2.1,
    rfl, rfl,
    ((update_of_stored_record_responds_404 .course sampleId updateBody freshWorld (by decide)
      ⟨rfl, rfl, rfl, rfl⟩ rfl).2 rfl).1⟩

/-! ## C5: read-by-id on a cache miss -/

/-- C5: for every well-formed identifier with no cache entry, when both
stores are reachable: if the document store has no matching record the
handler answers 404 and the cache is unchanged; if it has the record `r` the
handler answers 200 with `r` and the cache afterwards holds the entry for `r`
under `<resource>:<id>` with a time to live of 3600 seconds. -/
theorem read_by_id_cache_miss (res : Resource) (id : String) (w : World)
    (hid : w.isValid id = true) (hmiss : w.cache (res.key id) = none)
    (hredis : w.redisUp) (hget : w.fails .redisGet = false) (hset : w.fails .redisSet = false)
    (hmongo : w.mongoUp) (hfind : w.fails .findOne = false) :
    ((w.store res.collection).find? (matchesId w id) = none →
        (res.getById id w).1 = .ok ⟨404, res.notFound⟩
          ∧ (res.getById id w).2.cache = w.cache)
      ∧ (∀ r, (w.store res.collection).find? (matchesId w id) = some r →
        (res.getById id w).1 = .ok ⟨200, .obj r⟩
          ∧ (res.getById id w).2.cache (res.key id) = some (entryFor r 3600)) := by
  obtain ⟨hstep, hcache, -⟩ := getCachedData_spec (res.key id) w
  have hnull := getCachedData_miss_up (res.key id) w hredis hget hmiss
  have hF := fun w1 h => findOneById_spec res.collection id w1 h
  have hFup := fun w1 h1 h2 h3 => findOneById_up res.collection id w1 h1 h2 h3
  have hCD := fun r w2 h1 h2 => cacheData_up (res.key id) r 3600 w2 h1 h2 (by decide)
  cases res <;>
  · simp only [Resource.key, Resource.collection, Resource.notFound] at *
    simp only [Resource.getById, getCourseById, getStudentById, run_tryCatch, run_bind]
    rcases hg : getCachedData _ w with ⟨rc, w1⟩
    rw [hg] at hstep hcache hnull
    simp only at hstep hcache hnull
    subst hnull
    have hid1 : w1.isValid id = true := by rw [hstep.isValid]; exact hid
    have hmongo1 : w1.mongoUp := mongoUp_congr hstep.env hstep.fails hmongo
    have hfind1 : w1.fails .findOne = false := by rw [hstep.fails]; exact hfind
    obtain ⟨hfstep, -, -⟩ := hF w1 hid1
    have hfound := hFup w1 hid1 hmongo1 hfind1
    rw [hstep.store, matchesId_congr w w1 hstep.oidHex] at hfound
    simp only [JsVal.truthy, Bool.false_eq_true, if_false, run_bind]
    rcases hf : findOneById _ id w1 with ⟨rf, w2⟩
    rw [hf] at hfstep hfound
    simp only at hfstep hfound
    subst hfound
    have hcache2 : w2.cache = w.cache := hfstep.cache.trans hcache
    constructor
    · intro hnone
      simp only [hnone]
      exact ⟨rfl, hcache2⟩
    · intro r hsome
      simp only [hsome, run_bind]
      have hredis2 : w2.redisUp :=
        redisUp_congr (hfstep.env.trans hstep.env) (hfstep.fails.trans hstep.fails) hredis
      have hset2 : w2.fails .redisSet = false := by
        rw [hfstep.fails, hstep.fails]; exact hset
      obtain ⟨hok, hentry⟩ := hCD r w2 hredis2 hset2
      rcases hc : cacheData _ (JsVal.obj r) 3600 w2 with ⟨rcd, w3⟩
      rw [hc] at hok hentry
      simp only at hok hentry
      subst hok
      exact ⟨rfl, hentry⟩

/-- Instances for `GET /courses/:id` with an empty cache: a stored course
(200, cache filled) and an empty store (404). -/
theorem read_by_id_cache_miss_witness :
    storedWorld.isValid sampleId = true
      ∧ storedWorld.cache (Resource.course.key sampleId) = none
      ∧ (storedWorld.store "courses").find? (matchesId storedWorld sampleId) = some sampleCourse
      ∧ (getCourseById sampleId storedWorld).1 = .ok ⟨200, .obj sampleCourse⟩
      ∧ (getCourseById sampleId storedWorld).2.cache ("course:" ++ sampleId)
          = some (entryFor sampleCourse 3600)
      ∧ (freshWorld.store "courses").find? (matchesId freshWorld sampleId) = none
      ∧ (getCourseById sampleId freshWorld).1 = .ok ⟨404, errorBody "Course not found"⟩ :=
  ⟨by decide, rfl, rfl,
    ((read_by_id_cache_miss .course sampleId storedWorld (by decide) rfl ⟨rfl, rfl, rfl, rfl⟩
      rfl rfl ⟨rfl, rfl, rfl, rfl⟩ rfl).2 sampleCourse rfl).1,
    ((read_by_id_cache_miss .course sampleId storedWorld (by decide) rfl ⟨rfl, rfl, rfl, rfl⟩
      rfl rfl ⟨rfl, rfl, rfl, rfl⟩ rfl).2 sampleCourse rfl).2,
    rfl,
    ((read_by_id_cache_miss .course sampleId freshWorld (by decide) rfl ⟨rfl, rfl, rfl, rfl⟩
      rfl rfl ⟨rfl, rfl, rfl, rfl⟩ rfl).1 rfl).1⟩

/-! ## C6: identifier validation in the store service -/

/-- C6: for every collection and every identifier that `ObjectId.isValid`
refuses, `findOneById`, `updateOneById` and `deleteOneById` throw
`Invalid ObjectId` and return the world they were given: no connection
attempt, no store access, no change of state. -/
theorem invalid_id_rejected_before_any_access (w : World) (collection id : String)
    (updates : Record) (h : w.isValid id = false) :
    findOneById collection id w = (.error (mkError "Invalid ObjectId"), w)
      ∧ updateOneById collection id updates w = (.error (mkError "Invalid ObjectId"), w)
      ∧ deleteOneById collection id w = (.error (mkError "Invalid ObjectId"), w) :=
  ⟨findOneById_invalid w collection id h, updateOneById_invalid w collection id updates h,
    deleteOneById_invalid w collection id h⟩

/-- Instance for the identifier `not-an-id` on the fresh process. -/
theorem invalid_id_rejected_witness :
    freshWorld.isValid "not-an-id" = false
      ∧ findOneById "courses" "not-an-id" freshWorld
          = (.error (mkError "Invalid ObjectId"), freshWorld)
      ∧ updateOneById "courses" "not-an-id" [("duration", .num 45)] freshWorld
          = (.error (mkError "Invalid ObjectId"), freshWorld)
      ∧ deleteOneById "courses" "not-an-id" freshWorld
          = (.error (mkError "Invalid ObjectId"), freshWorld) :=
  ⟨by decide,
    invalid_id_rejected_before_any_access freshWorld "courses" "not-an-id"
      [("duration", .num 45)] (by decide)⟩

/-! ## C7: malformed identifiers at the handlers -/

/-- C7, as stated, fails: for the malformed identifier `not-an-id` the
three handlers of `/courses/:id` answer 500, which is not a 400-class
status. -/
theorem malformed_id_gets_500_not_400 :
    freshWorld.isValid "not-an-id" = false
      ∧ (getCourseById "not-an-id" freshWorld).1 = .ok ⟨500, internalError⟩
      ∧ (updateCourse "not-an-id" updateBody freshWorld).1 = .ok ⟨500, internalError⟩
      ∧ (deleteCourse "not-an-id" freshWorld).1 = .ok ⟨500, internalError⟩
      ∧ (getStudentById "not-an-id" freshWorld).1 = .ok ⟨500, internalError⟩
      ∧ ¬ (400 ≤ 500 ∧ 500 < 500) := by
  refine ⟨by decide, rfl, rfl, rfl, rfl, by decide⟩

/-- C7 (amended): no handler checks the identifier; the `Invalid ObjectId`
error of the store service reaches the handler's catch-all.  For every
malformed identifier, PUT and DELETE answer 500 with the generic error body
and change nothing; GET answers 500 as well whenever the cache holds nothing
under `<resource>:<id>` or holds an entry written by `cacheData` for a
record. -/
theorem malformed_id_responds_500 (res : Resource) (id : String) (body : Record) (w : World)
    (hid : w.isValid id = false) :
    res.update id body w = (.ok ⟨500, internalError⟩, w)
      ∧ res.delete id w = (.ok ⟨500, internalError⟩, w)
      ∧ ((∀ e, w.cache (res.key id) = some e → ∃ r ttl, e = entryFor r ttl) →
          (res.getById id w).1 = .ok ⟨500, internalError⟩) := by
  have hU := fun c u => updateOneById_invalid w c id u hid
  have hD := fun c => deleteOneById_invalid w c id hid
  obtain ⟨hstep, -, hval⟩ := getCachedData_spec (res.key id) w
  have hF := fun (c : String) (w1 : World) (h : w1.isValid id = false) =>
    findOneById_invalid w1 c id h
  cases res <;>
  · simp only [Resource.key] at hstep hval ⊢
    refine ⟨?_, ?_, ?_⟩
    · simp [Resource.update, updateCourse, updateStudent, hU, internalError]
    · simp [Resource.delete, deleteCourse, deleteStudent, hD, internalError]
    · intro hwf
      simp only [Resource.getById, getCourseById, getStudentById, run_tryCatch, run_bind]
      rcases hg : getCachedData _ w with ⟨e | v, w1⟩
      · rfl
      · rw [hg] at hstep hval
        have hid1 : w1.isValid id = false := by rw [hstep.isValid]; exact hid
        rcases hval v rfl with ⟨_, rfl⟩ | ⟨entry, hsome, hcase⟩
        · simp [JsVal.truthy, hF _ w1 hid1, internalError]
        · obtain ⟨r, ttl, rfl⟩ := hwf entry hsome
          rcases hcase with ⟨_, rfl⟩ | ⟨_, hparse⟩
          · simp [JsVal.truthy, hF _ w1 hid1, internalError]
          · obtain ⟨gs, rfl⟩ := parseText_serialize_obj r v hparse
            simp only [JsVal.truthy, if_true, run_bind, parse_obj_throws, Js.ofExcept,
              run_throw]
            rfl

/-- Instance for `PUT` and `DELETE /courses/not-an-id` on the fresh
process. -/
theorem malformed_id_responds_500_witness :
    freshWorld.isValid "not-an-id" = false
      ∧ updateCourse "not-an-id" updateBody freshWorld = (.ok ⟨500, internalError⟩, freshWorld)
      ∧ deleteCourse "not-an-id" freshWorld = (.ok ⟨500, internalError⟩, freshWorld) :=
  ⟨by decide,
    (malformed_id_responds_500 .course "not-an-id" updateBody freshWorld (by decide)).1,
    (malformed_id_responds_500 .course "not-an-id" updateBody freshWorld (by decide)).2.1⟩

/-! ## C8, C9, C10: connection establishment -/

/-- C8, as stated, fails: after a first successful `connectMongo` /
`connectRedis` a further call constructs one more client object and replaces
the handle. -/
theorem connect_again_creates_new_client :
    (connectMongo freshWorld).1 = .ok ()
      ∧ (connectRedis (connectMongo freshWorld).2).1 = .ok ()
      ∧ connectedWorld.mongoClient = some 0
      ∧ (connectMongo connectedWorld).1 = .ok ()
      ∧ (connectMongo connectedWorld).2.mongoClient = some 2
      ∧ (connectMongo connectedWorld).2.clients = connectedWorld.clients + 1
      ∧ connectedWorld.redisClient = some ⟨1, true⟩
      ∧ (connectRedis connectedWorld).1 = .ok ()
      ∧ (connectRedis connectedWorld).2.redisClient = some ⟨2, true⟩
      ∧ (connectRedis connectedWorld).2.clients = connectedWorld.clients + 1 := by
  refine ⟨rfl, rfl, rfl, rfl, rfl, rfl, rfl, rfl, rfl, rfl⟩

/-- C8 (amended): there is no guard.  Whenever the store is configured and
reachable, every call of `connectMongo` succeeds, constructs a new client,
connects it and replaces `mongoClient` and `db` by it, whatever the handles
were before; likewise `connectRedis` and `redisClient`. -/
theorem connect_always_creates_client (w : World) :
    (w.mongoUp →
      (connectMongo w).1 = .ok ()
        ∧ (connectMongo w).2.mongoClient = some w.clients
        ∧ (connectMongo w).2.db = some ⟨w.clients, w.env.MONGODB_DB_NAME.getD ""⟩
        ∧ (connectMongo w).2.clients = w.clients + 1
        ∧ (connectMongo w).2.trace = w.trace ++
            [.call .newMongoClient (w.env.MONGODB_URI.getD ""), .call .mongoConnect ""])
    ∧ (w.redisUp →
      (connectRedis w).1 = .ok ()
        ∧ (connectRedis w).2.redisClient = some ⟨w.clients, true⟩
        ∧ (connectRedis w).2.clients = w.clients + 1
        ∧ (connectRedis w).2.trace = w.trace ++
            [.call .createClient (w.env.REDIS_URI.getD ""), .call .redisOn "connect",
              .call .redisOn "error", .call .redisConnect ""]) := by
  constructor
  · rintro ⟨h1, h2, h3, h4⟩
    rw [connectMongo_eq]
    simp [h1, h2, h3, h4, World.emit, World.withMongoClient]
  · rintro ⟨h1, h2, h3, h4⟩
    rw [connectRedis_eq]
    simp [h1, h2, h3, h4, World.emit, World.withRedisClient]

/-- Instance on a process in which both connections are already
established. -/
theorem connect_always_creates_client_witness :
    connectedWorld.mongoUp ∧ connectedWorld.redisUp
      ∧ (connectMongo connectedWorld).2.mongoClient = some connectedWorld.clients
      ∧ (connectRedis connectedWorld).2.redisClient = some ⟨connectedWorld.clients, true⟩ :=
  ⟨⟨rfl, rfl, rfl, rfl⟩, ⟨rfl, rfl, rfl, rfl⟩,
    ((connect_always_creates_client connectedWorld).1 ⟨rfl, rfl, rfl, rfl⟩).2.1,
    ((connect_always_creates_client connectedWorld).2 ⟨rfl, rfl, rfl, rfl⟩).2.1⟩

/-- C9: with `NODE_ENV=test`, when the client's `connect` fails,
`connectMongo` rejects with `MongoDB connection failed during tests` and
`connectRedis` rejects with `Redis connection failed during tests`; neither
call registers a timer, and neither does the `error` listener of the Redis
client, which throws the same error. -/
theorem strict_mode_connect_failure_rejects (w : World)
    (htest : w.env.NODE_ENV = some "test") :
    (w.fails .mongoConnect = true →
      (connectMongo w).1 = .error (mkError "MongoDB connection failed during tests")
        ∧ ∃ es, (connectMongo w).2.trace = w.trace ++ es ∧ ∀ e ∈ es, e.isTimer = false)
    ∧ (w.fails .redisConnect = true →
      (connectRedis w).1 = .error (mkError "Redis connection failed during tests")
        ∧ ∃ es, (connectRedis w).2.trace = w.trace ++ es ∧ ∀ e ∈ es, e.isTimer = false)
    ∧ redisErrorListener w
        = (.error (mkError "Redis connection failed during tests"), w) := by
  refine ⟨?_, ?_, ?_⟩
  · intro hf
    rw [connectMongo_eq]
    cases h1 : envMissing w.env.MONGODB_URI <;>
    cases h2 : envMissing w.env.MONGODB_DB_NAME <;>
    cases h3 : w.fails .newMongoClient <;>
    simp [h1, h2, h3, hf, htest, mongoFailed, World.emit, World.withMongoClient, Event.isTimer]
  · intro hf
    rw [connectRedis_eq]
    cases h1 : envMissing w.env.REDIS_URI <;>
    cases h2 : w.fails .createClient <;>
    cases h3 : w.fails .redisOn <;>
    simp [h1, h2, h3, hf, htest, redisFailed, World.emit, World.withRedisClient, Event.isTimer]
  · simp [redisErrorListener, htest]

/-- Instance with `NODE_ENV=test` and both stores unreachable. -/
theorem strict_mode_connect_failure_witness :
    testDownWorld.env.NODE_ENV = some "test"
      ∧ testDownWorld.fails .mongoConnect = true
      ∧ testDownWorld.fails .redisConnect = true
      ∧ (connectMongo testDownWorld).1
          = .error (mkError "MongoDB connection failed during tests")
      ∧ (connectRedis testDownWorld).1
          = .error (mkError "Redis connection failed during tests") :=
  ⟨rfl, rfl, rfl,
    ((strict_mode_connect_failure_rejects testDownWorld rfl).1 rfl).1,
    ((strict_mode_connect_failure_rejects testDownWorld rfl).2.1 rfl).1⟩

/-- C10, as stated, fails: outside test mode, with the document store
unreachable, `connectMongo` is fulfilled, not rejected; its caller receives
no error. -/
theorem normal_mode_failed_connect_resolves :
    mongoDownWorld.env.NODE_ENV ≠ some "test"
      ∧ mongoDownWorld.fails .mongoConnect = true
      ∧ (connectMongo mongoDownWorld).1 = .ok ()
      ∧ (connectMongo mongoDownWorld).2.trace =
          [.call .newMongoClient "mongodb://localhost:27017", .call .mongoConnect "",
            .setTimeout .connectMongo 5000] := by
  refine ⟨by decide, rfl, rfl, rfl⟩

/-- C10 (amended): outside test mode, whenever the client's `connect`
fails, `connectMongo` registers exactly one timer, `setTimeout(connectMongo,
5000)`, as its last effect, leaves `db` as it was, and is fulfilled: the
failure is not passed on to the caller. -/
theorem normal_mode_failed_connect_schedules_retry (w : World)
    (hmode : w.env.NODE_ENV ≠ some "test") (hf : w.fails .mongoConnect = true) :
    (connectMongo w).1 = .ok ()
      ∧ (connectMongo w).2.db = w.db
      ∧ ∃ es, (connectMongo w).2.trace = w.trace ++ es ++ [.setTimeout .connectMongo 5000]
          ∧ ∀ e ∈ es, e.isTimer = false := by
  rw [connectMongo_eq]
  cases h1 : envMissing w.env.MONGODB_URI <;>
  cases h2 : envMissing w.env.MONGODB_DB_NAME <;>
  cases h3 : w.fails .newMongoClient <;>
  simp [h1, h2, h3, hf, hmode, mongoFailed, World.emit, World.withMongoClient, Event.isTimer] <;>
  first
    | exact ⟨[.call .newMongoClient _, .call .mongoConnect ""], rfl, by simp⟩
    | exact ⟨[.call .newMongoClient _], rfl, by simp⟩

/-- Instance with `NODE_ENV` unset and the document store unreachable. -/
theorem normal_mode_failed_connect_witness :
    mongoDownWorld.env.NODE_ENV ≠ some "test"
      ∧ mongoDownWorld.fails .mongoConnect = true
      ∧ (connectMongo mongoDownWorld).1 = .ok ()
      ∧ (connectMongo mongoDownWorld).2.db = mongoDownWorld.db :=
  ⟨by decide, rfl,
    (normal_mode_failed_connect_schedules_retry mongoDownWorld (by decide) rfl).1,
    (normal_mode_failed_connect_schedules_retry mongoDownWorld (by decide) rfl).2.1⟩

/-! ## C11: absent configuration -/

/-- C11, as stated, fails.  `connectMongo` and `connectRedis` read
`process.env` at each call, and `config/db.js` can only be loaded with the
three variables set, because it requires `config/env.js`: the functions find
their configuration absent only when the variables were removed after the
modules were loaded.  In such a process outside test mode (`validateEnv`
passed on `freshWorld`, would throw on `noConfigWorld`), `connectMongo` and
`connectRedis` are fulfilled and each registers its 5-second retry timer. -/
theorem absent_config_schedules_retry_in_normal_mode :
    validateEnv freshWorld = (.ok (), freshWorld)
      ∧ noConfigWorld
          = { freshWorld with
              env := { freshWorld.env with
                MONGODB_URI := none, MONGODB_DB_NAME := none, REDIS_URI := none } }
      ∧ (validateEnv noConfigWorld).1
          = .error (mkError "La variable d\x27environnement MONGODB_URI est manquante.")
      ∧ noConfigWorld.env.NODE_ENV ≠ some "test"
      ∧ (connectMongo noConfigWorld).1 = .ok ()
      ∧ (connectMongo noConfigWorld).2.trace = [.setTimeout .connectMongo 5000]
      ∧ (connectRedis noConfigWorld).1 = .ok ()
      ∧ (connectRedis noConfigWorld).2.trace = [.setTimeout .connectRedis 5000] := by
  refine ⟨rfl, rfl, rfl, by decide, rfl, rfl, rfl, rfl⟩

/-- C11 (amended): absent configuration is fatal when `config/env.js` is
loaded.  In every execution mode `validateEnv` passes exactly when none of the
three required variables is unset or empty; otherwise it throws the error
that names the first of `MONGODB_URI`, `MONGODB_DB_NAME`, `REDIS_URI` that is
missing and changes nothing, so that running `app.js` ends with that error
before any connection attempt and without any timer.  `connectMongo` (resp.
`connectRedis`), which reads the environment at each call and so finds its
configuration absent only when the variables were removed after the modules
were loaded, then rejects under `NODE_ENV=test` with its fixed message and
changes nothing. -/
theorem absent_config_fatal_at_load (w : World) :
    (envMissing w.env.MONGODB_URI = true →
        validateEnv w
            = (.error (mkError "La variable d\x27environnement MONGODB_URI est manquante."), w)
          ∧ appMain w
            = (.error (mkError "La variable d\x27environnement MONGODB_URI est manquante."), w))
      ∧ (envMissing w.env.MONGODB_URI = false → envMissing w.env.MONGODB_DB_NAME = true →
        validateEnv w
            = (.error (mkError "La variable d\x27environnement MONGODB_DB_NAME est manquante."),
                w)
          ∧ appMain w
            = (.error (mkError "La variable d\x27environnement MONGODB_DB_NAME est manquante."),
                w))
      ∧ (envMissing w.env.MONGODB_URI = false → envMissing w.env.MONGODB_DB_NAME = false →
        envMissing w.env.REDIS_URI = true →
        validateEnv w
            = (.error (mkError "La variable d\x27environnement REDIS_URI est manquante."), w)
          ∧ appMain w
            = (.error (mkError "La variable d\x27environnement REDIS_URI est manquante."), w))
      ∧ (envMissing w.env.MONGODB_URI = false → envMissing w.env.MONGODB_DB_NAME = false →
        envMissing w.env.REDIS_URI = false → validateEnv w = (.ok (), w))
      ∧ (w.env.NODE_ENV = some "test" →
          (envMissing w.env.MONGODB_URI = true ∨ envMissing w.env.MONGODB_DB_NAME = true →
              connectMongo w = (.error (mkError "MongoDB connection failed during tests"), w))
            ∧ (envMissing w.env.REDIS_URI = true →
              connectRedis w = (.error (mkError "Redis connection failed during tests"), w))) := by
  refine ⟨?_, ?_, ?_, ?_, ?_⟩
  · intro h1
    constructor <;> simp [appMain, validateEnv, requiredEnvVars, Env.lookup, h1]
  · intro h1 h2
    constructor <;> simp [appMain, validateEnv, requiredEnvVars, Env.lookup, h1, h2]
  · intro h1 h2 h3
    constructor <;> simp [appMain, validateEnv, requiredEnvVars, Env.lookup, h1, h2, h3]
  · intro h1 h2 h3
    simp [validateEnv, requiredEnvVars, Env.lookup, h1, h2, h3]
  · intro htest
    constructor
    · intro hm
      rw [connectMongo_eq, if_pos hm]
      simp [mongoFailed, htest]
    · intro hr
      rw [connectRedis_eq, if_pos hr]
      simp [redisFailed, htest]

/-- Instance with the database name unset, outside test mode and in test
mode. -/
theorem absent_config_fatal_witness :
    envMissing ({ freshWorld.env with MONGODB_DB_NAME := none }).MONGODB_URI = false
      ∧ envMissing ({ freshWorld.env with MONGODB_DB_NAME := none }).MONGODB_DB_NAME = true
      ∧ validateEnv { freshWorld with env := { freshWorld.env with MONGODB_DB_NAME := none } }
          = (.error
              (mkError "La variable d\x27environnement MONGODB_DB_NAME est manquante."),
              { freshWorld with env := { freshWorld.env with MONGODB_DB_NAME := none } })
      ∧ appMain { freshWorld with env := { freshWorld.env with MONGODB_DB_NAME := none } }
          = (.error
              (mkError "La variable d\x27environnement MONGODB_DB_NAME est manquante."),
              { freshWorld with env := { freshWorld.env with MONGODB_DB_NAME := none } })
      ∧ (connectMongo
            { freshWorld with
              env := { freshWorld.env with MONGODB_DB_NAME := none, NODE_ENV := some "test" } }).1
          = .error (mkError "MongoDB connection failed during tests") :=
  ⟨rfl, rfl,
    ((absent_config_fatal_at_load
      { freshWorld with env := { freshWorld.env with MONGODB_DB_NAME := none } }).2.1
      rfl rfl).1,
    ((absent_config_fatal_at_load
      { freshWorld with env := { freshWorld.env with MONGODB_DB_NAME := none } }).2.1
      rfl rfl).2,
    congrArg Prod.fst
      (((absent_config_fatal_at_load
        { freshWorld with
          env := { freshWorld.env with MONGODB_DB_NAME := none, NODE_ENV := some "test" } }).2.2.2.2
        rfl).1 (Or.inr rfl))⟩

/-! ## C12: the SIGTERM handler -/

/-- C12 (what the code does): the handler never closes a connection and
never exits with code 0.  `config/db.js` exports no `closeMongo`, so the first
statement of the handler throws a `TypeError`; the catch block then calls
`process.exit(1)`.  In every state, the only effect of the handler is the exit
with code 1; in particular with both connections open neither `close` nor
`quit` is called. -/
theorem sigterm_handler_exits_with_1 (w : World) :
    dbExport "closeMongo" = none
      ∧ dbExport "closeRedis" = none
      ∧ sigtermHandler w = (.ok (), w.emit (.exit 1))
      ∧ connectedWorld.mongoClient = some 0
      ∧ connectedWorld.redisClient = some ⟨1, true⟩
      ∧ (sigtermHandler connectedWorld).2.trace = connectedWorld.trace ++ [.exit 1] := by
  refine ⟨rfl, rfl, ?_, rfl, rfl, rfl⟩
  simp [sigtermHandler, callDb, show dbExport "closeMongo" = none from rfl, processExit]

/-! ## C13: closing the connections -/

/-- C13, as stated, fails: with both clients open and a MongoDB client that
fails to close, `closeConnections` calls `close`, never calls `quit` on the
Redis client, and is fulfilled. -/
theorem failed_mongo_close_skips_redis_quit :
    closeFailsWorld.mongoClient = some 0
      ∧ closeFailsWorld.redisClient = some ⟨1, true⟩
      ∧ closeFailsWorld.fails .mongoClose = true
      ∧ (closeConnections closeFailsWorld).1 = .ok ()
      ∧ (closeConnections closeFailsWorld).2.trace
          = closeFailsWorld.trace ++ [.call .mongoClose ""]
      ∧ Event.call .redisQuit "" ∉ (closeConnections closeFailsWorld).2.trace := by
  refine ⟨rfl, rfl, rfl, rfl, rfl, by decide⟩

/-- C13 (amended): `closeConnections` closes the handles in sequence inside
one `try` block and is always fulfilled.  A handle that is absent is skipped.
With a MongoDB client present, `quit` on the Redis client is called only
after `close` has succeeded: when `close` fails, the error is caught and
`quit` is not called. -/
theorem close_connections_in_sequence (w : World) :
    (closeConnections w).1 = .ok ()
      ∧ (w.mongoClient = none → w.redisClient = none → closeConnections w = (.ok (), w))
      ∧ (w.mongoClient = none → w.redisClient.isSome = true →
          (closeConnections w).2.trace = w.trace ++ [.call .redisQuit ""])
      ∧ (w.mongoClient.isSome = true → w.fails .mongoClose = true →
          (closeConnections w).2.trace = w.trace ++ [.call .mongoClose ""])
      ∧ (w.mongoClient.isSome = true → w.fails .mongoClose = false →
          w.redisClient = none →
          (closeConnections w).2.trace = w.trace ++ [.call .mongoClose ""])
      ∧ (w.mongoClient.isSome = true → w.fails .mongoClose = false →
          w.redisClient.isSome = true →
          (closeConnections w).2.trace
            = w.trace ++ [.call .mongoClose "", .call .redisQuit ""]) := by
  cases hm : w.mongoClient <;> cases hr : w.redisClient <;>
  cases hf : w.fails .mongoClose <;> cases hq : w.fails .redisQuit <;>
  simp [closeConnections, libCall, World.emit, hm, hr, hf, hq]

/-- Instances: both clients open with a failing and with a working `close`. -/
theorem close_connections_witness :
    closeFailsWorld.mongoClient.isSome = true
      ∧ closeFailsWorld.fails .mongoClose = true
      ∧ (closeConnections closeFailsWorld).2.trace
          = closeFailsWorld.trace ++ [.call .mongoClose ""]
      ∧ connectedWorld.fails .mongoClose = false
      ∧ (closeConnections connectedWorld).2.trace
          = connectedWorld.trace ++ [.call .mongoClose "", .call .redisQuit ""] :=
  ⟨rfl, rfl, (close_connections_in_sequence closeFailsWorld).2.2.2.1 rfl rfl, rfl,
    (close_connections_in_sequence connectedWorld).2.2.2.2.2 rfl rfl rfl⟩

/-! ## C14: the cache round trip -/

theorem getCachedData_hit_up (key : String) (w : World) (hup : w.redisUp)
    (hget : w.fails .redisGet = false) (e : CacheEntry) (v : JsVal)
    (hhit : w.cache key = some e) (ht : (JsVal.str e.value).truthy = true)
    (hparse : JSON.parseText e.value = .ok v) :
    (getCachedData key w).1 = .ok v := by
  simp [getCachedData, connectRedis_up w hup, getRedisClient, World.redisConnected, redisCall,
    libCall, World.emit, World.withRedisClient, hget, hhit, ht, hparse, Js.ofExcept, Js.pure]

/-- C14 (counterexample): the round trip does not give back the record in
every field.  `cacheData` of the course document with its store-assigned
`_id` (an `ObjectId`) on the fresh process succeeds, and the immediately
following `getCachedData` of the same key returns a record whose `_id` is the
24-digit string, not the `ObjectId`: `JSON.stringify` writes an `ObjectId` as
its hexadecimal string and `JSON.parse` has no way to turn it back. -/
theorem cache_round_trip_returns_id_as_string :
    (cacheData ("course:" ++ sampleId) (.obj sampleCourse) 3600 freshWorld).1 = .ok ()
      ∧ (getCachedData ("course:" ++ sampleId)
            (cacheData ("course:" ++ sampleId) (.obj sampleCourse) 3600 freshWorld).2).1
          = .ok (.obj [("_id", .str sampleId), ("name", .str "Algorithms"),
              ("duration", .num 40)])
      ∧ (getCachedData ("course:" ++ sampleId)
            (cacheData ("course:" ++ sampleId) (.obj sampleCourse) 3600 freshWorld).2).1
          ≠ .ok (.obj sampleCourse) := by
  refine ⟨rfl, rfl, ?_⟩
  have h : (getCachedData ("course:" ++ sampleId)
      (cacheData ("course:" ++ sampleId) (.obj sampleCourse) 3600 freshWorld).2).1
        = .ok (.obj [("_id", .str sampleId), ("name", .str "Algorithms"),
            ("duration", .num 40)]) := rfl
  rw [h]
  intro hc
  simp [sampleCourse] at hc

/-- C14 (amended): the cache round trip gives back the JSON form of the
record.  For every key, every record `r` built from `null`, booleans,
strings, integers of magnitude at most `2^53 - 1`, `ObjectId`s, and arrays and
objects of these (`jsonSafe`), every `ttl > 0` and every process in which the
key-value store is reachable and `SET` and `GET` succeed,
`cacheData(key, r, ttl)` resolves and the immediately following
`getCachedData(key)` resolves with `jsonForm r`: the same fields in the same
order with the same values, except that every `ObjectId` (the store-assigned
`_id` in particular) comes back as its hexadecimal string. -/
theorem cache_round_trip_json_form (key : String) (r : Record) (ttl : Nat) (w : World)
    (hsafe : jsonSafe (.obj r) = true) (httl : 0 < ttl) (hup : w.redisUp)
    (hset : w.fails .redisSet = false) (hget : w.fails .redisGet = false) :
    (cacheData key (.obj r) ttl w).1 = .ok ()
      ∧ (getCachedData key (cacheData key (.obj r) ttl w).2).1 = .ok (jsonForm (.obj r)) := by
  obtain ⟨hok, hentry⟩ := cacheData_up key r ttl w hup hset (by omega)
  obtain ⟨hstep, -, -⟩ := cacheData_spec key (.obj r) ttl w
  have hup2 : (cacheData key (.obj r) ttl w).2.redisUp := by
    unfold World.redisUp at hup ⊢
    rw [hstep.env, hstep.fails]
    exact hup
  have hget2 : (cacheData key (.obj r) ttl w).2.fails .redisGet = false := by
    rw [hstep.fails]
    exact hget
  exact ⟨hok, getCachedData_hit_up key _ hup2 hget2 (entryFor r ttl) _ hentry
    (serialize_obj_truthy r) (parseText_serialize (.obj r) hsafe)⟩

/-- Instance at the course document of the fresh process: written under
`course:507f1f77bcf86cd799439011` for an hour and read back, it has its three
fields, with `_id` as a string. -/
theorem cache_round_trip_witness :
    jsonSafe (.obj sampleCourse) = true
      ∧ freshWorld.redisUp
      ∧ (cacheData ("course:" ++ sampleId) (.obj sampleCourse) 3600 freshWorld).1 = .ok ()
      ∧ (getCachedData ("course:" ++ sampleId)
            (cacheData ("course:" ++ sampleId) (.obj sampleCourse) 3600 freshWorld).2).1
          = .ok (.obj [("_id", .str sampleId), ("name", .str "Algorithms"),
              ("duration", .num 40)]) :=
  ⟨rfl, ⟨rfl, rfl, rfl, rfl⟩,
    cache_round_trip_json_form ("course:" ++ sampleId) sampleCourse 3600 freshWorld rfl
      (by decide) ⟨rfl, rfl, rfl, rfl⟩ rfl rfl⟩

/-! ## C15: delete, then read -/

theorem deleteOneById_up (collection id : String) (w : World) (hid : w.isValid id = true)
    (hup : w.mongoUp) (hdel : w.fails .deleteOne = false) :
    (deleteOneById collection id w).1 = .ok ((w.store collection).any (matchesId w id))
      ∧ (deleteOneById collection id w).2.store collection
          = removeFirst (matchesId w id) (w.store collection) := by
  have hm : matchesId (w.mongoConnected.emit (.call .deleteOne collection)) id
      = matchesId w id := matchesId_congr _ _ rfl id
  have hs : (w.mongoConnected.emit (.call .deleteOne collection)).store = w.store := rfl
  have hcall : dbCall w.mongoConnected.db .deleteOne collection w.mongoConnected
      = (.ok (), w.mongoConnected.emit (.call .deleteOne collection)) := by
    simp [World.mongoConnected, dbCall, libCall, hdel, World.emit, World.withMongoClient]
  simp only [deleteOneById, run_bind, run_get, hid, Bool.not_true, Bool.false_eq_true, if_false,
    getDb, connectMongo_up w hup, hcall, hm, hs, run_modify, run_pure]
  constructor
  · cases (w.store collection).any (matchesId w id) <;> simp
  · simp [World.setCollection]

theorem deleteCache_cacheStep (key : String) (w : World) :
    CacheStep w (deleteCache key w).2 := by
  have hR := connectRedis_cacheStep w
  simp only [deleteCache, run_tryCatch, run_bind, getRedisClient]
  rcases hcr : connectRedis w with ⟨e | u, w1⟩
  · rw [hcr] at hR
    exact hR
  · rw [hcr] at hR
    simp only at hR
    have hC := redisCall_cacheStep w1.redisClient .redisDel key w1 rfl
    dsimp only
    rcases hcall : redisCall w1.redisClient .redisDel key w1 with ⟨e | u, w2⟩
    · rw [hcall] at hC
      exact cacheStep_trans hR hC.1
    · rw [hcall] at hC
      simp only at hC
      have hstep : CacheStep w w2 := cacheStep_trans hR hC.1
      simp only [run_get, run_bind, run_modify, run_pure]
      exact ⟨hstep.env, hstep.isValid, hstep.oidHex, hstep.fails, hstep.oidSupply,
        hstep.store, hstep.mongoClient, hstep.db, hstep.oidUsed, hstep.trace⟩

theorem keyExists_up (key : String) (w : World) (hup : w.redisUp)
    (hex : w.fails .redisExists = false) :
    (keyExists key w).1 = .ok (w.cache key).isSome := by
  simp only [keyExists, connectRedis_up w hup, getRedisClient, run_tryCatch, run_bind, run_get,
    run_pure]
  have hcall : redisCall w.redisConnected.redisClient .redisExists key w.redisConnected
      = (.ok (), w.redisConnected.emit (.call .redisExists key)) := by
    simp [World.redisConnected, redisCall, libCall, hex, World.emit, World.withRedisClient]
  simp only [hcall]
  have hc : (w.redisConnected.emit (.call .redisExists key)).cache = w.cache := by
    simp [World.redisConnected, World.emit, World.withRedisClient]
  rw [hc]
  cases (w.cache key).isSome <;> simp

theorem find_removeFirst_unique (p : Record → Bool) :
    ∀ l : List Record, (l.filter p).length ≤ 1 → (removeFirst p l).find? p = none := by
  intro l
  induction l with
  | nil => intro _; rfl
  | cons x xs ih =>
    intro h
    by_cases hx : p x = true
    · simp only [List.filter, hx, List.length_cons] at h
      have h0 : (xs.filter p).length = 0 := by omega
      have hnil : xs.filter p = [] := List.length_eq_zero.mp h0
      simp only [removeFirst, hx, if_true]
      rw [List.find?_eq_none]
      intro y hy hpy
      have : y ∈ xs.filter p := List.mem_filter.mpr ⟨hy, hpy⟩
      rw [hnil] at this
      cases this
    · simp only [Bool.not_eq_true] at hx
      simp only [List.filter, hx] at h
      simp [removeFirst, hx, List.find?, ih h]

/-- Read-by-id when the cache holds nothing under the key and the store
holds no matching record: 404, and cache and configuration are as before. -/
theorem getById_absent (res : Resource) (id : String) (w : World)
    (hid : w.isValid id = true) (hmiss : w.cache (res.key id) = none)
    (hredis : w.redisUp) (hget : w.fails .redisGet = false)
    (hmongo : w.mongoUp) (hfind : w.fails .findOne = false)
    (hnone : (w.store res.collection).find? (matchesId w id) = none) :
    (res.getById id w).1 = .ok ⟨404, res.notFound⟩
      ∧ (res.getById id w).2.cache = w.cache
      ∧ (res.getById id w).2.env = w.env
      ∧ (res.getById id w).2.fails = w.fails := by
  obtain ⟨hstep, hcache, -⟩ := getCachedData_spec (res.key id) w
  have hnull := getCachedData_miss_up (res.key id) w hredis hget hmiss
  have hF := fun w1 h => findOneById_spec res.collection id w1 h
  have hFup := fun w1 h1 h2 h3 => findOneById_up res.collection id w1 h1 h2 h3
  cases res <;>
  · simp only [Resource.key, Resource.collection, Resource.notFound] at *
    simp only [Resource.getById, getCourseById, getStudentById, run_tryCatch, run_bind]
    rcases hg : getCachedData _ w with ⟨rc, w1⟩
    rw [hg] at hstep hcache hnull
    simp only at hstep hcache hnull
    subst hnull
    have hid1 : w1.isValid id = true := by rw [hstep.isValid]; exact hid
    have hmongo1 : w1.mongoUp := mongoUp_congr hstep.env hstep.fails hmongo
    have hfind1 : w1.fails .findOne = false := by rw [hstep.fails]; exact hfind
    obtain ⟨hfstep, -, -⟩ := hF w1 hid1
    have hfound := hFup w1 hid1 hmongo1 hfind1
    rw [hstep.store, matchesId_congr w w1 hstep.oidHex, hnone] at hfound
    simp only [JsVal.truthy, Bool.false_eq_true, if_false, run_bind]
    rcases hf : findOneById _ id w1 with ⟨rf, w2⟩
    rw [hf] at hfstep hfound
    simp only at hfstep hfound
    subst hfound
    exact ⟨rfl, hfstep.cache.trans hcache, hfstep.env.trans hstep.env,
      hfstep.fails.trans hstep.fails⟩

/-- C15: delete, then read.  For every stored record with a well-formed
identifier `id` (the store holding one record per identifier), when both
stores are reachable: `deleteCourse` / `deleteStudent` answers 200, the
following read-by-id answers 404 and the following `keyExists` on
`<resource>:<id>` returns `false`, whatever the cache held before the
delete. -/
theorem delete_then_read_not_found (res : Resource) (id : String) (doc : Record) (w : World)
    (hid : w.isValid id = true)
    (hmongo : w.mongoUp) (hdel : w.fails .deleteOne = false) (hfind : w.fails .findOne = false)
    (hredis : w.redisUp) (hrdel : w.fails .redisDel = false) (hget : w.fails .redisGet = false)
    (hex : w.fails .redisExists = false)
    (hdoc : (w.store res.collection).find? (matchesId w id) = some doc)
    (huniq : ((w.store res.collection).filter (matchesId w id)).length ≤ 1) :
    (res.delete id w).1 = .ok ⟨200, res.deleted⟩
      ∧ (res.getById id (res.delete id w).2).1 = .ok ⟨404, res.notFound⟩
      ∧ (keyExists (res.key id) (res.getById id (res.delete id w).2).2).1 = .ok false := by
  -- the state after the delete handler
  have hstate : (res.delete id w).1 = .ok ⟨200, res.deleted⟩
      ∧ (res.delete id w).2.env = w.env ∧ (res.delete id w).2.fails = w.fails
      ∧ (res.delete id w).2.isValid = w.isValid ∧ (res.delete id w).2.oidHex = w.oidHex
      ∧ (res.delete id w).2.cache (res.key id) = none
      ∧ (res.delete id w).2.store res.collection
          = removeFirst (matchesId w id) (w.store res.collection) := by
    have hD := deleteOneById_storeStep res.collection id w
    obtain ⟨hres, hstore⟩ := deleteOneById_up res.collection id w hid hmongo hdel
    have hany : (w.store res.collection).any (matchesId w id) = true :=
      List.any_eq_true.mpr ⟨doc, List.mem_of_find?_eq_some hdoc, List.find?_some hdoc⟩
    rw [hany] at hres
    have hDC := fun w1 h1 h2 => deleteCache_up (res.key id) w1 h1 h2
    have hDS := fun w1 => deleteCache_cacheStep (res.key id) w1
    cases res <;>
    · simp only [Resource.key, Resource.collection, Resource.deleted] at *
      simp only [Resource.delete, deleteCourse, deleteStudent, run_tryCatch, run_bind]
      rcases hd : deleteOneById _ id w with ⟨r1, w1⟩
      rw [hd] at hD hres hstore
      simp only at hD hres hstore
      subst hres
      have hredis1 : w1.redisUp := redisUp_congr hD.env hD.fails hredis
      have hrdel1 : w1.fails .redisDel = false := by rw [hD.fails]; exact hrdel
      obtain ⟨⟨b, hok⟩, hnone, -⟩ := hDC w1 hredis1 hrdel1
      have hS := hDS w1
      simp only [Bool.not_true, Bool.false_eq_true, if_false, run_bind]
      rcases hc : deleteCache _ w1 with ⟨r2, w2⟩
      rw [hc] at hok hnone hS
      simp only at hok hnone hS
      subst hok
      exact ⟨rfl, hS.env.trans hD.env, hS.fails.trans hD.fails,
        hS.isValid.trans hD.isValid, hS.oidHex.trans hD.oidHex, hnone,
        (congrFun hS.store _).trans hstore⟩
  obtain ⟨h200, henv, hfails, hvalid, hhex, hcache, hstore⟩ := hstate
  have hid2 : (res.delete id w).2.isValid id = true := by rw [hvalid]; exact hid
  have hredis2 : (res.delete id w).2.redisUp := redisUp_congr henv hfails hredis
  have hmongo2 : (res.delete id w).2.mongoUp := mongoUp_congr henv hfails hmongo
  have hget2 : (res.delete id w).2.fails .redisGet = false := by rw [hfails]; exact hget
  have hfind2 : (res.delete id w).2.fails .findOne = false := by rw [hfails]; exact hfind
  have hgone : ((res.delete id w).2.store res.collection).find?
      (matchesId (res.delete id w).2 id) = none := by
    rw [hstore, matchesId_congr w _ hhex]
    exact find_removeFirst_unique _ _ huniq
  obtain ⟨h404, hcache3, henv3, hfails3⟩ :=
    getById_absent res id (res.delete id w).2 hid2 hcache hredis2 hget2 hmongo2 hfind2 hgone
  refine ⟨h200, h404, ?_⟩
  have hredis3 : (res.getById id (res.delete id w).2).2.redisUp :=
    redisUp_congr henv3 hfails3 hredis2
  have hex3 : (res.getById id (res.delete id w).2).2.fails .redisExists = false := by
    rw [hfails3, hfails]; exact hex
  rw [keyExists_up _ _ hredis3 hex3, hcache3, hcache]
  rfl

/-- Instance: the course created on the fresh process is deleted, then
read. -/
theorem delete_then_read_witness :
    (createdWorld.store "courses").find? (matchesId createdWorld sampleId)
        = some createdCourse
      ∧ createdWorld.cache ("course:" ++ sampleId) = some (entryFor createdCourse 3600)
      ∧ (deleteCourse sampleId createdWorld).1
          = .ok ⟨200, messageBody "Course deleted successfully"⟩
      ∧ (getCourseById sampleId (deleteCourse sampleId createdWorld).2).1
          = .ok ⟨404, errorBody "Course not found"⟩
      ∧ (keyExists ("course:" ++ sampleId)
            (getCourseById sampleId (deleteCourse sampleId createdWorld).2).2).1
          = .ok false :=
  ⟨rfl, rfl,
    delete_then_read_not_found .course sampleId createdCourse createdWorld (by decide)
      ⟨rfl, rfl, rfl, rfl⟩ rfl rfl ⟨rfl, rfl, rfl, rfl⟩ rfl rfl rfl rfl (by decide)⟩

/-! ## C16: what an update overwrites -/

/-- C16 (what the code does): the update is not a merge of the fields present
in the body.  The handlers always pass every field of the resource to
`updateOneById`, a field absent from the body as `undefined`, and the store
writes such a field as `null`.  For every stored record and every body, when
the document store is reachable, the record that the store holds under the
identifier after `updateCourse` / `updateStudent` has `null` in each field of
the resource that is absent from the body: the stored value is lost. -/
theorem update_nulls_fields_absent_from_body (res : Resource) (id : String)
    (body doc : Record) (w : World) (hid : w.isValid id = true) (hup : w.mongoUp)
    (hfu : w.fails .findOneAndUpdate = false)
    (hdoc : (w.store res.collection).find? (matchesId w id) = some doc) :
    ∃ u, ((res.update id body w).2.store res.collection).find? (matchesId w id) = some u
      ∧ u.getProp "_id" = doc.getProp "_id"
      ∧ ∀ k, k ∈ (res.fields body).map Prod.fst → body.getProp k = .undefined →
          u.getProp k = .null := by
  obtain ⟨hfound, -⟩ := updateOneById_up res.collection id (res.fields body) w hid hup hfu
  obtain ⟨-, hstore⟩ := hfound doc hdoc
  obtain ⟨hnull, hkeep, -⟩ := applySet_fields res doc body
  refine ⟨applySet doc (toBson (res.fields body)), ?_, hkeep, hnull⟩
  rw [update_handler_store, hstore]
  apply find_replaceFirst _ _ _ _ doc hdoc
  have hmatch := find_matchesId w id _ doc hdoc
  simp only [matchesId, hkeep] at hmatch ⊢
  exact hmatch

/-- Instance for `PUT /courses/:id` with the body `{ duration: 45 }` on the
stored course `Algorithms`: afterwards the stored name is `null`. -/
theorem update_nulls_fields_witness :
    (storedWorld.store "courses").find? (matchesId storedWorld sampleId) = some sampleCourse
      ∧ sampleCourse.getProp "name" = .str "Algorithms"
      ∧ Record.getProp [("duration", .num 45)] "name" = .undefined
      ∧ (updateCourse sampleId [("duration", .num 45)] storedWorld).2.store "courses"
          = [[("_id", .oid sampleId), ("name", .null), ("duration", .num 45)]]
      ∧ ∃ u, ((updateCourse sampleId [("duration", .num 45)] storedWorld).2.store
              "courses").find? (matchesId storedWorld sampleId) = some u
          ∧ u.getProp "name" = .null :=
  ⟨rfl, rfl, rfl, rfl,
    (update_nulls_fields_absent_from_body .course sampleId [("duration", .num 45)]
      sampleCourse storedWorld (by decide) ⟨rfl, rfl, rfl, rfl⟩ rfl rfl).imp
      fun _ h => ⟨h.1, h.2.2 "name" (by simp [Resource.fields]) rfl⟩⟩

/-! ## C17: the listening port -/

theorem config_has_no_PORT (env : Env) : (config env).getProp "PORT" = .undefined := by
  simp [config, Record.getProp]

theorem connectMongo_noApp (w : World) :
    ∃ es, (connectMongo w).2.trace = w.trace ++ es ∧ ∀ e ∈ es, e.isAppEvent = false := by
  obtain ⟨es, ht, hp⟩ := (connectMongo_storeStep w).trace
  refine ⟨es, ht, fun e he => ?_⟩
  have h := hp e he
  cases e <;> simp_all [Event.onStoreSide, Event.isAppEvent]

theorem connectRedis_noApp (w : World) :
    ∃ es, (connectRedis w).2.trace = w.trace ++ es ∧ ∀ e ∈ es, e.isAppEvent = false := by
  rw [connectRedis_eq]
  cases h1 : envMissing w.env.REDIS_URI <;>
  cases h2 : w.fails .createClient <;>
  cases h3 : w.fails .redisOn <;>
  cases h4 : w.fails .redisConnect <;>
  by_cases h5 : w.env.NODE_ENV = some "test" <;>
  simp [h1, h2, h3, h4, h5, redisFailed, World.emit, World.withRedisClient, Event.isAppEvent]

/-- What `initializeDatabases` can do: it is always fulfilled, and its
effects are library calls and timers, possibly followed by `process.exit(1)`. -/
theorem initializeDatabases_spec (w : World) :
    (initializeDatabases w).1 = .ok ()
      ∧ (initializeDatabases w).2.env = w.env
      ∧ ∃ es, (initializeDatabases w).2.trace = w.trace ++ es
          ∧ ∀ p, Event.listen p ∉ es := by
  obtain ⟨es1, ht1, hp1⟩ := connectMongo_noApp w
  have henv1 := (connectMongo_storeStep w).env
  simp only [initializeDatabases, callDb, dbExport, run_tryCatch, run_bind, if_true,
    show ("connectRedis" = "connectMongo") = False from by decide, if_false]
  rcases hm : connectMongo w with ⟨e | u, w1⟩
  · rw [hm] at ht1 henv1
    simp only at ht1 henv1
    refine ⟨rfl, henv1, es1 ++ [.exit 1], ?_, ?_⟩
    · simp [processExit, World.emit, ht1]
    · intro p hmem
      rcases List.mem_append.mp hmem with h | h
      · have := hp1 _ h
        simp [Event.isAppEvent] at this
      · simp at h
  · rw [hm] at ht1 henv1
    simp only at ht1 henv1
    obtain ⟨es2, ht2, hp2⟩ := connectRedis_noApp w1
    have henv2 := (connectRedis_cacheStep w1).env
    dsimp only
    rcases hr : connectRedis w1 with ⟨e | u, w2⟩
    · rw [hr] at ht2 henv2
      simp only at ht2 henv2
      refine ⟨rfl, henv2.trans henv1, es1 ++ es2 ++ [.exit 1], ?_, ?_⟩
      · simp [processExit, World.emit, ht2, ht1]
      · intro p hmem
        simp only [List.mem_append, List.mem_singleton] at hmem
        rcases hmem with (h | h) | h
        · have := hp1 _ h
          simp [Event.isAppEvent] at this
        · have := hp2 _ h
          simp [Event.isAppEvent] at this
        · cases h
    · rw [hr] at ht2 henv2
      simp only at ht2 henv2
      refine ⟨rfl, henv2.trans henv1, es1 ++ es2, ?_, ?_⟩
      · simp [ht2, ht1]
      · intro p hmem
        rcases List.mem_append.mp hmem with h | h
        · have := hp1 _ h
          simp [Event.isAppEvent] at this
        · have := hp2 _ h
          simp [Event.isAppEvent] at this

/-- C17 (what the code does): `startServer` never listens on the port of the
environment.  It reads `config.PORT`, while `config/env.js` exports the value
under the name `port`; the property read is `undefined` for every
environment, so whenever the server starts to listen it listens on 3000.
With `PORT=8080` and both stores reachable it listens on 3000. -/
theorem start_server_always_listens_on_3000 (w : World) :
    ((config w.env).getProp "port" = (envValue w.env.PORT).orElse (.num 3000))
      ∧ ((config w.env).getProp "PORT").orElse (.num 3000) = .num 3000
      ∧ (∃ es, (startServer w).2.trace = w.trace ++ es
          ∧ ∀ p, Event.listen p ∈ es → p = "3000")
      ∧ port8080World.env.PORT = some "8080"
      ∧ (startServer port8080World).2.trace
          = [.call .newMongoClient "mongodb://localhost:27017", .call .mongoConnect "",
              .call .createClient "redis://localhost:6379", .call .redisOn "connect",
              .call .redisOn "error", .call .redisConnect "", .useRoutes "/courses",
              .useRoutes "/students", .listen "3000"] := by
  refine ⟨by simp [config, Record.getProp], by simp [config_has_no_PORT, JsVal.orElse, JsVal.truthy],
    ?_, rfl, rfl⟩
  obtain ⟨hok, henv, es, ht, hp⟩ := initializeDatabases_spec w
  simp only [startServer, run_tryCatch, run_bind]
  rcases hi : initializeDatabases w with ⟨r, w1⟩
  rw [hi] at hok ht
  simp only at hok ht
  subst hok
  simp only [Js.whileAlive]
  by_cases hx : w1.exited = true
  · simp only [hx, if_true]
    exact ⟨es, ht, fun p h => absurd h (hp p)⟩
  · simp only [hx, if_false, Bool.false_eq_true, run_bind, setupRoutes, run_get, listen,
      World.emit, config_has_no_PORT, JsVal.orElse, JsVal.truthy, JsVal.toJsString]
    refine ⟨es ++ [.useRoutes "/courses", .useRoutes "/students", .listen (toString (3000 : Int))],
      by simp [ht], ?_⟩
    intro p hmem
    simp only [List.mem_append, List.mem_cons, List.mem_singleton] at hmem
    rcases hmem with h | h | h | h | h
    · exact absurd h (hp p)
    · cases h
    · cases h
    · cases h
      rfl
    · simp at h

end LearningPlatform
